import Mathlib

/-!
Verification of the flang statement-semantics layer: a shallow embedding of
the statement-label scope (src/lib/Sema/Scope.cpp), the executable-statement
semantic actions (src/lib/Sema/SemaExecStmt.cpp) and the statement parser
paths relevant to control flow (src/lib/Parse/ParseExec.cpp).

Statements live in an arena (a list indexed by creation order); the patchable
label slots (a GOTO's destination, an assigned/computed GOTO's target lists,
an ASSIGN's address, a DO's terminator) are Option-valued fields mutated by
the label-resolution mechanism exactly as the C++ mutates the AST nodes.
Collaborator subsystems that are out of scope for these claims (expression
typing, source locations, diagnostics formatting) are projected away:
diagnostics are modelled as an append-only list of tagged records, and the
type-checking helpers, which never touch the label table, the construct stack
or the body, are omitted.
-/

namespace Flang

/-- Statement ids are arena indices (creation order). -/
abbrev StmtId := Nat

/-- Variable and declaration identifiers. -/
abbrev VarId := Nat
abbrev IdentId := Nat

/-- The ConstructPartStmt sub-classes used by the executable statements. -/
inductive ConstructPartKind where
  | elseStmtClass
  | endIfStmtClass
  | endDoStmtClass
  deriving DecidableEq, Repr

/-- Statement kinds together with their kind-specific operands, following the
Stmt classes used by src/lib/Sema/SemaExecStmt.cpp.  The Option-valued StmtId
fields are the patchable statement-label slots: an empty slot is an
unresolved StmtLabelReference, a full one references the resolved statement. -/
inductive StmtKind where
  | assignStmt (varRef : VarId) (address : Option StmtId)
  | gotoStmt (destination : Option StmtId)
  | assignedGotoStmt (varRef : VarId) (allowedValues : List (Option StmtId))
  | computedGotoStmt (targets : List (Option StmtId))
  | ifStmt (thenStmt : Option StmtId) (elseStmt : Option StmtId)
  | doStmt (doVar : Option VarId) (terminatingStmt : Option StmtId)
  | doWhileStmt
  | constructPart (part : ConstructPartKind)
  | continueStmt
  | stopStmt
  | returnStmt
  | callStmt (function : IdentId)
  | cycleStmt (loop : Option StmtId)
  | exitStmt (loop : Option StmtId)
  deriving DecidableEq, Repr

/-- One statement node: its kind-specific operands, the statement label it
carries (if any), its construct name (if any), and the two usage flags the
label resolution sets on declaring statements. -/
structure StmtNode where
  kind : StmtKind
  stmtLabel : Option Nat := none
  constructName : Option Nat := none
  usedAsGotoTarget : Bool := false
  usedAsAssignTarget : Bool := false
  deriving DecidableEq, Repr

/-- StmtLabelScope::ForwardDecl: a pending patch request - the raw label
expression value, the owning statement, and the slot index
(ResolveCallbackData, defaulted to 0 for single-slot owners). -/
structure ForwardDecl where
  StmtLabel : Nat
  Statement : StmtId
  ResolveCallbackData : Nat := 0
  deriving DecidableEq, Repr

/-- BlockStmtBuilder::Entry: an open-construct stack entry - the owning
statement and, for a DO opened with an explicit terminal label, that label. -/
structure Entry where
  Statement : StmtId
  ExpectedEndDoLabel : Option Nat := none
  deriving DecidableEq, Repr

/-- Entry::hasExpectedDoLabel. -/
def Entry.hasExpectedDoLabel (e : Entry) : Bool := e.ExpectedEndDoLabel.isSome

/-- Diagnostics, modelled as tagged records in emission order. -/
inductive Diag where
  | duplicateStmtLabel (lbl : Nat)
  | notePreviousDefinition
  | stmtLabelMustDeclAfter (lbl : Nat) (kw : String)
  | expectedKw (kw : String)
  | noteMatching (kw : String)
  | expectedStmtLabelEndDo (lbl : Nat)
  | invalidDoTerminatingStmt
  | stmtNotInIf (kw : String)
  | endDoWithoutDo
  | useOfInvalidConstructName
  | expectedConstructName (expected : Nat)
  | noteMatchingIdent (expected : Nat)
  | callRequiresSubroutine (kindCode : Nat)
  | expectedFuncAfterCall
  | warnDeprecatedComputedGoto
  | stmtNotInLoop (s : String)
  deriving DecidableEq, Repr

/-- The declarations a CALL statement's callee name can resolve to:
FunctionDecl (external subroutine, normal function, or statement function),
IntrinsicFunctionDecl (not a FunctionDecl), or a non-callable variable. -/
inductive FunctionKind where
  | externalProc
  | normalFunction
  | statementFunction
  deriving DecidableEq, Repr

inductive DeclInfo where
  | functionDecl (fk : FunctionKind)
  | intrinsicFunctionDecl
  | varDecl
  deriving DecidableEq, Repr

/-- The per-procedure semantic state threaded through the actions: the
statement arena, the current body (appended statements in order), the
open-construct stack (head is the top), the statement-label scope (declared
map and pending forward references), the active loop variables, the
identifier environment used by CALL, the Fortran77 language flag and the
emitted diagnostics. -/
structure SemaState where
  arena : List StmtNode := []
  body : List StmtId := []
  ControlFlowStack : List Entry := []
  StmtLabelDeclsInScope : List (Nat × StmtId) := []
  ForwardStmtLabelDeclsInScope : List ForwardDecl := []
  loopVars : List VarId := []
  decls : List (IdentId × DeclInfo) := []
  Fortran77 : Bool := true
  diags : List Diag := []
  deriving DecidableEq, Repr

/-- Arena lookup. -/
def getStmt (st : SemaState) (i : StmtId) : Option StmtNode := st.arena.get? i

/-- Arena update (no-op when the index is out of range, as List.set). -/
def setStmt (st : SemaState) (i : StmtId) (n : StmtNode) : SemaState :=
  { st with arena := st.arena.set i n }

/-- Arena in-place modification of the node at an index. -/
def modifyStmt (st : SemaState) (i : StmtId) (f : StmtNode → StmtNode) : SemaState :=
  match st.arena.get? i with
  | some n => setStmt st i (f n)
  | none => st

/-- Statement creation: the node is given the next arena index. -/
def newStmt (st : SemaState) (n : StmtNode) : StmtId × SemaState :=
  (st.arena.length, { st with arena := st.arena ++ [n] })

def addDiag (st : SemaState) (d : Diag) : SemaState :=
  { st with diags := st.diags ++ [d] }

def addDiags (st : SemaState) (ds : List Diag) : SemaState :=
  { st with diags := st.diags ++ ds }

-- ===========================================================================
-- Statement-label scope: src/lib/Sema/Scope.cpp
-- ===========================================================================

/-- Modelled from the spec: the StmtLabelInteger typedef lives in the Sema
Scope header, which is not under src/; only its existence and the clamping of
label values to its maximum are visible in src/lib/Sema/Scope.cpp.  It is an
unsigned machine-integer type; its maximum value is represented here. -/
def stmtLabelIntegerMax : Nat := 2 ^ 32 - 1

/-- GetStmtLabelValue (src/lib/Sema/Scope.cpp): the integer constant value of
the label expression, limited to the maximum of StmtLabelInteger
(APInt::getLimitedValue semantics - values above the limit become the limit).
Label expressions that are not integer constants are unreachable per the
source's own assertion, so labels are modelled by their constant value. -/
def GetStmtLabelValue (e : Nat) : Nat := min e stmtLabelIntegerMax

/-- StmtLabelScope::Declare: registers a declaration under the clamped key.
The underlying map insert does not overwrite an existing binding, so the
first declaration wins. -/
def StmtLabelScope.Declare (st : SemaState) (StmtLabel : Nat) (Statement : StmtId) :
    SemaState :=
  let Key := GetStmtLabelValue StmtLabel
  match st.StmtLabelDeclsInScope.find? (fun p => p.1 == Key) with
  | some _ => st
  | none =>
    { st with StmtLabelDeclsInScope := st.StmtLabelDeclsInScope ++ [(Key, Statement)] }

/-- StmtLabelScope::Resolve: identity lookup under the clamped key. -/
def StmtLabelScope.Resolve (st : SemaState) (StmtLabel : Nat) : Option StmtId :=
  (st.StmtLabelDeclsInScope.find? (fun p => p.1 == GetStmtLabelValue StmtLabel)).map
    (fun p => p.2)

/-- StmtLabelScope::DeclareForwardReference: appends a pending patch request. -/
def StmtLabelScope.DeclareForwardReference (st : SemaState) (Reference : ForwardDecl) :
    SemaState :=
  { st with ForwardStmtLabelDeclsInScope := st.ForwardStmtLabelDeclsInScope ++ [Reference] }

/-- Modelled from the spec: StmtLabelScope::RemoveForwardReference is declared
in the Scope header, which is not under src/.  Per the spec it removes the
pending request of the given owning statement, used when a deferred DO
terminator is resolved out of band to avoid double patching. -/
def StmtLabelScope.RemoveForwardReference (st : SemaState) (owner : StmtId) : SemaState :=
  { st with ForwardStmtLabelDeclsInScope :=
      st.ForwardStmtLabelDeclsInScope.filter (fun fd => fd.Statement ≠ owner) }

/-- Modelled from the spec: StmtLabelScope::IsSame is declared in the Scope
header, which is not under src/.  Two label expressions denote the same label
exactly when the label table maps them to the same clamped key. -/
def StmtLabelScope.IsSame (a b : Nat) : Bool :=
  GetStmtLabelValue a == GetStmtLabelValue b

-- ===========================================================================
-- Statement node mutators (the patchable AST slots and usage flags)
-- ===========================================================================

/-- GotoStmt::setDestination. -/
def setDestination (st : SemaState) (i : StmtId) (dest : Option StmtId) : SemaState :=
  modifyStmt st i (fun n =>
    match n.kind with
    | .gotoStmt _ => { n with kind := .gotoStmt dest }
    | _ => n)

/-- AssignedGotoStmt::setAllowedValue at a slot index. -/
def setAllowedValue (st : SemaState) (i : StmtId) (slot : Nat) (v : Option StmtId) :
    SemaState :=
  modifyStmt st i (fun n =>
    match n.kind with
    | .assignedGotoStmt var al => { n with kind := .assignedGotoStmt var (al.set slot v) }
    | _ => n)

/-- ComputedGotoStmt::setTarget at a slot index. -/
def setTarget (st : SemaState) (i : StmtId) (slot : Nat) (v : Option StmtId) : SemaState :=
  modifyStmt st i (fun n =>
    match n.kind with
    | .computedGotoStmt ts => { n with kind := .computedGotoStmt (ts.set slot v) }
    | _ => n)

/-- AssignStmt::setAddress. -/
def setAddress (st : SemaState) (i : StmtId) (addr : Option StmtId) : SemaState :=
  modifyStmt st i (fun n =>
    match n.kind with
    | .assignStmt v _ => { n with kind := .assignStmt v addr }
    | _ => n)

/-- DoStmt::setTerminatingStmt. -/
def setTerminatingStmt (st : SemaState) (i : StmtId) (t : Option StmtId) : SemaState :=
  modifyStmt st i (fun n =>
    match n.kind with
    | .doStmt v _ => { n with kind := .doStmt v t }
    | _ => n)

/-- IfStmt::setElseStmt. -/
def setElseStmt (st : SemaState) (i : StmtId) (e : Option StmtId) : SemaState :=
  modifyStmt st i (fun n =>
    match n.kind with
    | .ifStmt t _ => { n with kind := .ifStmt t e }
    | _ => n)

/-- Stmt::setStmtLabelUsedAsGotoTarget. -/
def setStmtLabelUsedAsGotoTarget (st : SemaState) (i : StmtId) : SemaState :=
  modifyStmt st i (fun n => { n with usedAsGotoTarget := true })

/-- Stmt::setStmtLabelUsedAsAssignTarget. -/
def setStmtLabelUsedAsAssignTarget (st : SemaState) (i : StmtId) : SemaState :=
  modifyStmt st i (fun n => { n with usedAsAssignTarget := true })

-- ===========================================================================
-- StmtLabelResolver: src/lib/Sema/SemaExecStmt.cpp Visit methods
-- ===========================================================================

/-- The statement-label resolver's dispatch: given a pending request Info and
the newly declared statement StmtLabelDecl, patch the owning statement
according to its kind, exactly as the Visit methods in
src/lib/Sema/SemaExecStmt.cpp: an AssignStmt's address slot is set and the
declared statement is marked used-as-assign-target; an AssignedGotoStmt's
allowed-value slot at ResolveCallbackData is set (no usage marking); a
GotoStmt's destination is set and the declared statement is marked
used-as-goto-target; a ComputedGotoStmt's target slot at ResolveCallbackData
is set and the declared statement is marked used-as-goto-target; a DoStmt's
terminating statement is set (no usage marking).  The dispatch is a closed
match over the statement kinds: every other kind is left untouched (the
StmtVisitor base case). -/
def StmtLabelResolver.Visit (st : SemaState) (Info : ForwardDecl)
    (StmtLabelDecl : StmtId) : SemaState :=
  match getStmt st Info.Statement with
  | none => st
  | some node =>
    match node.kind with
    | .assignStmt _ _ =>
      let st := setAddress st Info.Statement (some StmtLabelDecl)
      setStmtLabelUsedAsAssignTarget st StmtLabelDecl
    | .assignedGotoStmt _ _ =>
      setAllowedValue st Info.Statement Info.ResolveCallbackData (some StmtLabelDecl)
    | .gotoStmt _ =>
      let st := setDestination st Info.Statement (some StmtLabelDecl)
      setStmtLabelUsedAsGotoTarget st StmtLabelDecl
    | .computedGotoStmt _ =>
      let st := setTarget st Info.Statement Info.ResolveCallbackData (some StmtLabelDecl)
      setStmtLabelUsedAsGotoTarget st StmtLabelDecl
    | .doStmt _ _ =>
      setTerminatingStmt st Info.Statement (some StmtLabelDecl)
    | _ => st

-- ===========================================================================
-- BlockStmtBuilder and loop-variable bookkeeping
-- ===========================================================================

/-- Modelled from the spec: the BlockStmtBuilder (current body) is declared in
a Sema header not under src/.  Append adds a fully formed statement to the
current body's linear sequence. -/
def BlockStmtBuilder.Append (st : SemaState) (s : StmtId) : SemaState :=
  { st with body := st.body ++ [s] }

/-- Modelled from the spec: Enter pushes a new open-construct stack entry. -/
def BlockStmtBuilder.Enter (st : SemaState) (e : Entry) : SemaState :=
  { st with ControlFlowStack := e :: st.ControlFlowStack }

/-- Modelled from the spec: Leave pops the top open-construct stack entry. -/
def BlockStmtBuilder.Leave (st : SemaState) : SemaState :=
  { st with ControlFlowStack := st.ControlFlowStack.tail }

/-- Modelled from the spec: HasEntered reports whether any construct is open. -/
def BlockStmtBuilder.HasEntered (st : SemaState) : Bool :=
  !st.ControlFlowStack.isEmpty

/-- Modelled from the spec: LastEntered is the top open-construct entry. -/
def BlockStmtBuilder.LastEntered (st : SemaState) : Option Entry :=
  st.ControlFlowStack.head?

/-- Modelled from the spec: registering a DO's induction variable as active. -/
def AddLoopVar (st : SemaState) (v : VarId) : SemaState :=
  { st with loopVars := st.loopVars ++ [v] }

/-- Modelled from the spec: releasing a DO's induction variable from the
active set when its block is left. -/
def RemoveLoopVar (st : SemaState) (v : VarId) : SemaState :=
  { st with loopVars := st.loopVars.erase v }

-- ===========================================================================
-- Unterminated-construct reporting and stack unwinding
-- (src/lib/Sema/SemaExecStmt.cpp)
-- ===========================================================================

/-- The kind of the statement at an arena index. -/
def stmtKindOf (st : SemaState) (i : StmtId) : Option StmtKind :=
  (getStmt st i).map (fun n => n.kind)

/-- The diagnostics Sema::ReportUnterminatedStmt emits for one entry: an
IfStmt entry expects the "end if" keyword; a DO or DO WHILE entry with an
expected end-do label reports the expected-statement-label diagnostic only
when ReportUnterminatedLabeledDo is set; any other DO or DO WHILE entry
expects the "end do" keyword.  Other kinds are unreachable per the source. -/
def unterminatedStmtDiags (st : SemaState) (S : Entry)
    (ReportUnterminatedLabeledDo : Bool) : List Diag :=
  match stmtKindOf st S.Statement with
  | some (.ifStmt _ _) => [.expectedKw "end if", .noteMatching "if"]
  | some .doWhileStmt | some (.doStmt _ _) =>
    match S.ExpectedEndDoLabel with
    | some lbl =>
      if ReportUnterminatedLabeledDo then
        [.expectedStmtLabelEndDo lbl, .noteMatching "do"]
      else []
    | none => [.expectedKw "end do", .noteMatching "do"]
  | _ => []

/-- Sema::ReportUnterminatedStmt. -/
def ReportUnterminatedStmt (st : SemaState) (S : Entry)
    (ReportUnterminatedLabeledDo : Bool) : SemaState :=
  addDiags st (unterminatedStmtDiags st S ReportUnterminatedLabeledDo)

/-- Modelled from the spec: the default value of ReportUnterminatedStmt's
ReportUnterminatedLabeledDo parameter is declared in the Sema header, which
is not under src/.  The spec's unwind algorithm reports an unterminated
construct for every popped entry, so the default is taken to report. -/
def reportUnterminatedLabeledDoDefault : Bool := true

/-- Sema::LeaveLastBlock: if the last entered statement is a DO, release its
loop variable; then leave the block. -/
def LeaveLastBlock (st : SemaState) : SemaState :=
  match BlockStmtBuilder.LastEntered st with
  | none => st
  | some e =>
    let st :=
      match stmtKindOf st e.Statement with
      | some (.doStmt (some v) _) => RemoveLoopVar st v
      | _ => st
    BlockStmtBuilder.Leave st

/-- Whether an entry holds an IfStmt (the dyn_cast in LeaveBlocksUntilIf). -/
def isIfEntry (st : SemaState) (e : Entry) : Bool :=
  match stmtKindOf st e.Statement with
  | some (.ifStmt _ _) => true
  | _ => false

/-- Whether an entry matches Sema::LeaveBlocksUntilDo's search: a DO WHILE, or
a DO with no expected end-do label. -/
def isEndDoTarget (st : SemaState) (e : Entry) : Bool :=
  match stmtKindOf st e.Statement with
  | some .doWhileStmt => true
  | some (.doStmt _ _) => !e.hasExpectedDoLabel
  | _ => false

/-- Whether an entry is a DO whose expected end-do label is the same label as
the given one (the match predicate of IsInLabeledDo and
LeaveBlocksUntilLabeledDo). -/
def isLabeledDoMatch (st : SemaState) (e : Entry) (StmtLabel : Nat) : Bool :=
  match stmtKindOf st e.Statement with
  | some (.doStmt _ _) =>
    match e.ExpectedEndDoLabel with
    | some l => StmtLabelScope.IsSame l StmtLabel
    | none => false
  | _ => false

/-- The common loop shape of Sema::LeaveBlocksUntilIf, LeaveBlocksUntilDo and
LeaveBlocksUntilLabeledDo: scan the open-construct stack top-down; stop at
and return the first entry satisfying the sought-kind predicate; report every
other entry as unterminated and leave its block; none when the stack empties.
The fuel is the stack size at entry (the C++ loops run an index from the
stack size down to zero, popping exactly one entry per non-matching step). -/
def LeaveBlocksUntilGo (sought : SemaState → Entry → Bool) :
    Nat → SemaState → Option StmtId × SemaState
  | 0, st => (none, st)
  | n + 1, st =>
    match st.ControlFlowStack.head? with
    | none => (none, st)
    | some e =>
      if sought st e then (some e.Statement, st)
      else
        LeaveBlocksUntilGo sought n
          (LeaveLastBlock (ReportUnterminatedStmt st e reportUnterminatedLabeledDoDefault))

/-- Sema::LeaveBlocksUntilIf: unwind to the first IfStmt entry. -/
def LeaveBlocksUntilIf (st : SemaState) : Option StmtId × SemaState :=
  LeaveBlocksUntilGo isIfEntry st.ControlFlowStack.length st

/-- Sema::LeaveBlocksUntilDo: unwind to the first DO WHILE or
no-expected-label DO entry. -/
def LeaveBlocksUntilDo (st : SemaState) : Option StmtId × SemaState :=
  LeaveBlocksUntilGo isEndDoTarget st.ControlFlowStack.length st

/-- Sema::LeaveBlocksUntilLabeledDo: unwind to the first DO entry whose
expected end-do label is the same label as the given one. -/
def LeaveBlocksUntilLabeledDo (st : SemaState) (StmtLabel : Nat) :
    Option StmtId × SemaState :=
  LeaveBlocksUntilGo (fun s e => isLabeledDoMatch s e StmtLabel)
    st.ControlFlowStack.length st

/-- Sema::IsInLabeledDo: whether some open DO waits for this label as its
terminator (a scan without popping). -/
def IsInLabeledDo (st : SemaState) (StmtLabel : Nat) : Bool :=
  st.ControlFlowStack.any (fun e => isLabeledDoMatch st e StmtLabel)

-- ===========================================================================
-- DO terminator admissibility (src/lib/Sema/SemaExecStmt.cpp)
-- ===========================================================================

/-- IsValidDoLogicalIfThenStatement: the guarded statement of a logical IF
used as a DO terminator may be anything except a DO, an IF, a DO WHILE or a
construct-part statement. -/
def IsValidDoLogicalIfThenStatement (S : StmtKind) : Bool :=
  match S with
  | .doStmt _ _ => false
  | .ifStmt _ _ => false
  | .doWhileStmt => false
  | .constructPart _ => false
  | _ => true

/-- Sema::IsValidDoTerminatingStatement: a GOTO, assigned GOTO, STOP, DO,
DO WHILE or construct-part statement is not a valid terminator; an IfStmt is
valid exactly when it has a then-statement that is itself a valid
logical-IF-guarded statement; everything else is valid. -/
def IsValidDoTerminatingStatement (st : SemaState) (S : StmtKind) : Bool :=
  match S with
  | .gotoStmt _ => false
  | .assignedGotoStmt _ _ => false
  | .stopStmt => false
  | .doStmt _ _ => false
  | .doWhileStmt => false
  | .constructPart _ => false
  | .ifStmt thenStmt _ =>
    match thenStmt with
    | none => false
    | some tid =>
      match stmtKindOf st tid with
      | some tk => IsValidDoLogicalIfThenStatement tk
      | none => false
  | _ => true

-- ===========================================================================
-- Labeled-DO termination and statement-label declaration
-- ===========================================================================

/-- Sema::CheckStatementLabelEndDo: when a statement carrying a label is acted
on while some open DO waits for that label, unwind the stack down to that DO
(reporting and popping anything still open above it), remove the DO's pending
forward reference, report an invalid terminator kind if need be, attach the
statement as the DO's terminator, and leave the DO's block. -/
def CheckStatementLabelEndDo (st : SemaState) (StmtLabel : Nat) (S : StmtId) :
    SemaState :=
  if !BlockStmtBuilder.HasEntered st then st
  else if !IsInLabeledDo st StmtLabel then st
  else
    match LeaveBlocksUntilLabeledDo st StmtLabel with
    | (none, st) => st
    | (some DoBegin, st) =>
      let st := StmtLabelScope.RemoveForwardReference st DoBegin
      let st :=
        match stmtKindOf st S with
        | some k =>
          if !IsValidDoTerminatingStatement st k then
            addDiag st .invalidDoTerminatingStmt
          else st
        | none => st
      let st := setTerminatingStmt st DoBegin (some S)
      LeaveLastBlock st

/-- Modelled from the spec: Sema::DeclareStatementLabel is defined in a Sema
translation unit not under src/.  Per the spec, declaring a label already
present reports exactly one duplicate-label diagnostic (with a note at the
previous declaration) and keeps the first declaration; declaring a new label
registers it, runs the labeled-DO termination check (the out-of-band DO
resolution, which removes that DO's pending request before the scan to avoid
double patching), and then patches and removes every pending forward
reference whose label value matches, dispatching on the owning statement's
kind through the StmtLabelResolver. -/
def DeclareStatementLabel (st : SemaState) (StmtLabel : Nat) (S : StmtId) : SemaState :=
  match StmtLabelScope.Resolve st StmtLabel with
  | some _ =>
    addDiags st [.duplicateStmtLabel (GetStmtLabelValue StmtLabel), .notePreviousDefinition]
  | none =>
    let st := StmtLabelScope.Declare st StmtLabel S
    let st := CheckStatementLabelEndDo st StmtLabel S
    let Key := GetStmtLabelValue StmtLabel
    let matching := st.ForwardStmtLabelDeclsInScope.filter
      (fun fd => GetStmtLabelValue fd.StmtLabel == Key)
    let remaining := st.ForwardStmtLabelDeclsInScope.filter
      (fun fd => GetStmtLabelValue fd.StmtLabel != Key)
    let st := { st with ForwardStmtLabelDeclsInScope := remaining }
    matching.foldl (fun s fd => StmtLabelResolver.Visit s fd S) st

/-- DeclareStatementLabel on an optional label, as the trailing
`if(StmtLabel) DeclareStatementLabel(StmtLabel, Result)` of every action. -/
def declareLabelIfPresent (st : SemaState) (StmtLabel : Option Nat) (S : StmtId) :
    SemaState :=
  match StmtLabel with
  | some lbl => DeclareStatementLabel st lbl S
  | none => st

/-- Sema::CheckConstructNameMatch: a closing part supplying a name requires
the opener to have that same name; an opener with a name requires the closing
part to supply it. -/
def CheckConstructNameMatch (st : SemaState) (Name : Option Nat) (S : StmtId) :
    SemaState :=
  let ExpectedName := (getStmt st S).bind (fun n => n.constructName)
  match Name with
  | some n =>
    match ExpectedName with
    | none => addDiag st .useOfInvalidConstructName
    | some e =>
      if e ≠ n then addDiags st [.expectedConstructName e, .noteMatchingIdent e]
      else st
  | none =>
    match ExpectedName with
    | some e => addDiags st [.expectedConstructName e, .noteMatchingIdent e]
    | none => st

-- ===========================================================================
-- Semantic actions (src/lib/Sema/SemaExecStmt.cpp), in source order.
-- A StmtResult is the built statement's id, or none for StmtError().  The
-- collaborator type checks (integer/logical requirements, assignability,
-- assignment coercion) touch none of the modelled state and are omitted.
-- ===========================================================================

/-- Sema::ActOnAssignStmt: resolve the label value or register a forward
reference; a resolved declaring statement is marked used-as-assign-target;
append; declare the carried label. -/
def ActOnAssignStmt (st : SemaState) (Value : Nat) (VarRef : VarId)
    (StmtLabel : Option Nat) : Option StmtId × SemaState :=
  match StmtLabelScope.Resolve st Value with
  | none =>
    let (Result, st) := newStmt st { kind := .assignStmt VarRef none, stmtLabel := StmtLabel }
    let st := StmtLabelScope.DeclareForwardReference st { StmtLabel := Value, Statement := Result }
    let st := BlockStmtBuilder.Append st Result
    let st := declareLabelIfPresent st StmtLabel Result
    (some Result, st)
  | some Decl =>
    let (Result, st) := newStmt st { kind := .assignStmt VarRef (some Decl), stmtLabel := StmtLabel }
    let st := setStmtLabelUsedAsAssignTarget st Decl
    let st := BlockStmtBuilder.Append st Result
    let st := declareLabelIfPresent st StmtLabel Result
    (some Result, st)

/-- Sema::ActOnAssignedGotoStmt: each allowed label value is resolved against
the current label scope (resolved entries are not marked as goto targets);
the statement is created with the resolved references; every still-unresolved
entry registers a forward reference carrying its slot index; append; declare
the carried label. -/
def ActOnAssignedGotoStmt (st : SemaState) (VarRef : VarId) (AllowedValues : List Nat)
    (StmtLabel : Option Nat) : Option StmtId × SemaState :=
  let AllowedLabels := AllowedValues.map (fun v => StmtLabelScope.Resolve st v)
  let (Result, st0) := newStmt st
    { kind := .assignedGotoStmt VarRef AllowedLabels, stmtLabel := StmtLabel }
  let st1 := AllowedValues.enum.foldl
    (fun s p =>
      if (StmtLabelScope.Resolve st p.2).isNone then
        StmtLabelScope.DeclareForwardReference s
          { StmtLabel := p.2, Statement := Result, ResolveCallbackData := p.1 }
      else s) st0
  let st2 := BlockStmtBuilder.Append st1 Result
  let st3 := declareLabelIfPresent st2 StmtLabel Result
  (some Result, st3)

/-- Sema::ActOnGotoStmt: resolve the destination or register a forward
reference; a resolved declaring statement is marked used-as-goto-target;
append; declare the carried label. -/
def ActOnGotoStmt (st : SemaState) (Destination : Nat) (StmtLabel : Option Nat) :
    Option StmtId × SemaState :=
  match StmtLabelScope.Resolve st Destination with
  | none =>
    let (Result, st) := newStmt st { kind := .gotoStmt none, stmtLabel := StmtLabel }
    let st := StmtLabelScope.DeclareForwardReference st { StmtLabel := Destination, Statement := Result }
    let st := BlockStmtBuilder.Append st Result
    let st := declareLabelIfPresent st StmtLabel Result
    (some Result, st)
  | some Decl =>
    let (Result, st) := newStmt st { kind := .gotoStmt (some Decl), stmtLabel := StmtLabel }
    let st := setStmtLabelUsedAsGotoTarget st Decl
    let st := BlockStmtBuilder.Append st Result
    let st := declareLabelIfPresent st StmtLabel Result
    (some Result, st)

/-- The marking pass of ActOnComputedGotoStmt (resolve each target against
the pre-state and mark the resolved declaring statements). -/
def markResolvedTargets (st : SemaState) (Targets : List Nat) (acc : SemaState) :
    SemaState :=
  Targets.foldl
    (fun s v =>
      match StmtLabelScope.Resolve st v with
      | some Decl => setStmtLabelUsedAsGotoTarget s Decl
      | none => s) acc

/-- Sema::ActOnComputedGotoStmt: a deprecation warning outside Fortran 77;
each target label value is resolved and, when resolved, the declaring
statement is marked used-as-goto-target; the statement is created with the
resolved references; every unresolved entry registers a forward reference
carrying its slot index; append; declare the carried label. -/
def ActOnComputedGotoStmt (st : SemaState) (Targets : List Nat)
    (StmtLabel : Option Nat) : Option StmtId × SemaState :=
  let st := if !st.Fortran77 then addDiag st .warnDeprecatedComputedGoto else st
  let TargetLabels := Targets.map (fun v => StmtLabelScope.Resolve st v)
  let stM := markResolvedTargets st Targets st
  let (Result, st0) := newStmt stM
    { kind := .computedGotoStmt TargetLabels, stmtLabel := StmtLabel }
  let st1 := Targets.enum.foldl
    (fun s p =>
      if (StmtLabelScope.Resolve st p.2).isNone then
        StmtLabelScope.DeclareForwardReference s
          { StmtLabel := p.2, Statement := Result, ResolveCallbackData := p.1 }
      else s) st0
  let st2 := BlockStmtBuilder.Append st1 Result
  let st3 := declareLabelIfPresent st2 StmtLabel Result
  (some Result, st3)

/-- Sema::ActOnIfStmt: create the IfStmt; append it when the condition is
usable; declare the carried label and construct name; enter the construct. -/
def ActOnIfStmt (st : SemaState) (conditionUsable : Bool) (Name : Option Nat)
    (StmtLabel : Option Nat) : Option StmtId × SemaState :=
  let (Result, st) := newStmt st
    { kind := .ifStmt none none, stmtLabel := StmtLabel, constructName := Name }
  let st := if conditionUsable then BlockStmtBuilder.Append st Result else st
  let st := declareLabelIfPresent st StmtLabel Result
  let st := BlockStmtBuilder.Enter st { Statement := Result }
  (some Result, st)

/-- Sema::ActOnDoStmt: when an explicit terminal label is given and is already
declared, report that the label must be declared after the DO (with a note at
the previous definition) and return an error with nothing created, appended,
registered or entered; otherwise create the DoStmt, register the loop
variable, append when the control bounds are usable, register the terminal
label as a pending forward reference, declare the carried label, and enter
the construct (with the expected end-do label, when given). -/
def ActOnDoStmt (st : SemaState) (TerminatingStmt : Option Nat) (DoVar : Option VarId)
    (e1Usable e2Usable : Bool) (Name : Option Nat) (StmtLabel : Option Nat) :
    Option StmtId × SemaState :=
  let AddToBody := DoVar.isSome && e1Usable && e2Usable
  match TerminatingStmt with
  | some term =>
    match StmtLabelScope.Resolve st term with
    | some _ =>
      (none, addDiags st [.stmtLabelMustDeclAfter term "DO", .notePreviousDefinition])
    | none =>
      let (Result, st) := newStmt st
        { kind := .doStmt DoVar none, stmtLabel := StmtLabel, constructName := Name }
      let st := match DoVar with
        | some v => AddLoopVar st v
        | none => st
      let st := if AddToBody then BlockStmtBuilder.Append st Result else st
      let st := StmtLabelScope.DeclareForwardReference st
        { StmtLabel := term, Statement := Result }
      let st := declareLabelIfPresent st StmtLabel Result
      let st := BlockStmtBuilder.Enter st
        { Statement := Result, ExpectedEndDoLabel := some term }
      (some Result, st)
  | none =>
    let (Result, st) := newStmt st
      { kind := .doStmt DoVar none, stmtLabel := StmtLabel, constructName := Name }
    let st := match DoVar with
      | some v => AddLoopVar st v
      | none => st
    let st := if AddToBody then BlockStmtBuilder.Append st Result else st
    let st := declareLabelIfPresent st StmtLabel Result
    let st := BlockStmtBuilder.Enter st { Statement := Result }
    (some Result, st)

/-- Sema::ActOnDoWhileStmt. -/
def ActOnDoWhileStmt (st : SemaState) (conditionUsable : Bool) (Name : Option Nat)
    (StmtLabel : Option Nat) : Option StmtId × SemaState :=
  let (Result, st) := newStmt st
    { kind := .doWhileStmt, stmtLabel := StmtLabel, constructName := Name }
  let st := if conditionUsable then BlockStmtBuilder.Append st Result else st
  let st := declareLabelIfPresent st StmtLabel Result
  let st := BlockStmtBuilder.Enter st { Statement := Result }
  (some Result, st)

/-- Sema::ActOnEndIfStmt: unwind to the innermost IfStmt (reporting the
closer-without-opener diagnostic when there is none); create and append the
END IF construct part; when an IfStmt was found, leave its block and check
the construct name; declare the carried label. -/
def ActOnEndIfStmt (st : SemaState) (Name : Option Nat) (StmtLabel : Option Nat) :
    Option StmtId × SemaState :=
  let (IfBegin, st) := LeaveBlocksUntilIf st
  let st := if IfBegin.isNone then addDiag st (.stmtNotInIf "end if") else st
  let (Result, st) := newStmt st
    { kind := .constructPart .endIfStmtClass, stmtLabel := StmtLabel }
  let st := BlockStmtBuilder.Append st Result
  let st := match IfBegin with
    | some ib =>
      let st := LeaveLastBlock st
      CheckConstructNameMatch st Name ib
    | none => st
  let st := declareLabelIfPresent st StmtLabel Result
  (some Result, st)

/-- Sema::ActOnEndDoStmt: unwind to the innermost DO WHILE or unlabeled DO
(reporting end-do-without-do when there is none); create and append the
END DO construct part; when a DO was found, leave its block and check the
construct name; declare the carried label. -/
def ActOnEndDoStmt (st : SemaState) (Name : Option Nat) (StmtLabel : Option Nat) :
    Option StmtId × SemaState :=
  let (DoBegin, st) := LeaveBlocksUntilDo st
  let st := if DoBegin.isNone then addDiag st .endDoWithoutDo else st
  let (Result, st) := newStmt st
    { kind := .constructPart .endDoStmtClass, stmtLabel := StmtLabel }
  let st := BlockStmtBuilder.Append st Result
  let st := match DoBegin with
    | some db =>
      let st := LeaveLastBlock st
      CheckConstructNameMatch st Name db
    | none => st
  let st := declareLabelIfPresent st StmtLabel Result
  (some Result, st)

/-- Sema::ActOnContinueStmt. -/
def ActOnContinueStmt (st : SemaState) (StmtLabel : Option Nat) :
    Option StmtId × SemaState :=
  let (Result, st) := newStmt st { kind := .continueStmt, stmtLabel := StmtLabel }
  let st := BlockStmtBuilder.Append st Result
  let st := declareLabelIfPresent st StmtLabel Result
  (some Result, st)

/-- Sema::ActOnStopStmt. -/
def ActOnStopStmt (st : SemaState) (StmtLabel : Option Nat) :
    Option StmtId × SemaState :=
  let (Result, st) := newStmt st { kind := .stopStmt, stmtLabel := StmtLabel }
  let st := BlockStmtBuilder.Append st Result
  let st := declareLabelIfPresent st StmtLabel Result
  (some Result, st)

/-- Sema::ResolveIdentifier as used by the CALL handling: a plain lookup in
the declaration environment. -/
def ResolveIdentifier (st : SemaState) (IDInfo : IdentId) : Option DeclInfo :=
  (st.decls.find? (fun p => p.1 == IDInfo)).map (fun p => p.2)

/-- Sema::ActOnCallStmt: a name resolving to a non-FunctionDecl (an intrinsic
or a variable) or to a normal or statement function reports
call-requires-subroutine and returns an error with nothing appended; an
unresolved name is implicitly declared as an external procedure; the CallStmt
is created, appended, and its carried label declared. -/
def ActOnCallStmt (st : SemaState) (IDInfo : IdentId) (StmtLabel : Option Nat) :
    Option StmtId × SemaState :=
  match ResolveIdentifier st IDInfo with
  | some Prev =>
    match Prev with
    | .intrinsicFunctionDecl => (none, addDiag st (.callRequiresSubroutine 1))
    | .varDecl => (none, addDiag st (.callRequiresSubroutine 0))
    | .functionDecl fk =>
      if fk = .normalFunction || fk = .statementFunction then
        (none, addDiag st (.callRequiresSubroutine 2))
      else
        let (Result, st) := newStmt st { kind := .callStmt IDInfo, stmtLabel := StmtLabel }
        let st := BlockStmtBuilder.Append st Result
        let st := declareLabelIfPresent st StmtLabel Result
        (some Result, st)
  | none =>
    let st := { st with decls := st.decls ++ [(IDInfo, .functionDecl .externalProc)] }
    let (Result, st) := newStmt st { kind := .callStmt IDInfo, stmtLabel := StmtLabel }
    let st := BlockStmtBuilder.Append st Result
    let st := declareLabelIfPresent st StmtLabel Result
    (some Result, st)

-- ===========================================================================
-- Parser paths (src/lib/Parse/ParseExec.cpp)
-- ===========================================================================

/-- The action statements a logical IF can guard in this development. -/
inductive ActionStmtKind where
  | continueAction
  | stopAction
  deriving DecidableEq, Repr

/-- Dispatch of Parser::ParseActionStmt for the modelled action statements. -/
def runActionStmt (st : SemaState) (a : ActionStmtKind) (StmtLabel : Option Nat) :
    Option StmtId × SemaState :=
  match a with
  | .continueAction => ActOnContinueStmt st StmtLabel
  | .stopAction => ActOnStopStmt st StmtLabel

/-- Parser::ParseIfStmt, the branch without THEN (src/lib/Parse/ParseExec.cpp
lines 265-277): act on the IfStmt, clear the pending statement label so the
trailing action statement does not receive it, parse the single trailing
action statement, and synthesize an implicit END IF. -/
def ParseLogicalIfStmt (st : SemaState) (conditionUsable : Bool)
    (StmtLabel : Option Nat) (action : ActionStmtKind) : Option StmtId × SemaState :=
  let (Result, st) := ActOnIfStmt st conditionUsable none StmtLabel
  let (Action, st) := runActionStmt st action none
  let (_, st) := ActOnEndIfStmt st none none
  (if Action.isNone then none else Result, st)

/-- Parser::ParseCallStmt's callee gate (src/lib/Parse/ParseExec.cpp lines
411-417): the parser resolves the callee identifier itself and reports
expected-function-after-CALL, returning an error without invoking the
semantic action, whenever the identifier does not resolve to a FunctionDecl;
only a resolved FunctionDecl reaches Sema::ActOnCallStmt. -/
def ParseCallStmt (st : SemaState) (IDInfo : IdentId) (StmtLabel : Option Nat) :
    Option StmtId × SemaState :=
  match ResolveIdentifier st IDInfo with
  | some (.functionDecl _) => ActOnCallStmt st IDInfo StmtLabel
  | _ => (none, addDiag st .expectedFuncAfterCall)

-- ===========================================================================
-- Helper lemmas
-- ===========================================================================

/-- The loop-variable effect of leaving one block. -/
def eraseEntryLoopVar (st : SemaState) (lv : List VarId) (e : Entry) : List VarId :=
  match stmtKindOf st e.Statement with
  | some (.doStmt (some v) _) => lv.erase v
  | _ => lv


/-- The unterminated-construct reports produced by popping a stack prefix. -/
def unwoundDiags (st : SemaState) (upper : List Entry) : List Diag :=
  (upper.map (fun x => unterminatedStmtDiags st x reportUnterminatedLabeledDoDefault)).flatten


/-- The diagnostics the labeled-DO termination check emits for the candidate
terminator statement: the invalid-DO-terminator report exactly when the
statement's kind is inadmissible. -/
def invalidDoTerminatorDiags (st : SemaState) (S : StmtId) : List Diag :=
  match stmtKindOf st S with
  | some k =>
    if !IsValidDoTerminatingStatement st k then [Diag.invalidDoTerminatingStmt] else []
  | none => []


/-- The inadmissible-DO-terminator set exactly as the claim words it: GOTO,
assigned GOTO, STOP, DO, DO WHILE and bare construct-part statements, plus a
logical IF whose guarded action statement is a DO, DO WHILE, IF or
construct-part.  This definition follows the claim, to be compared with the
source's IsValidDoTerminatingStatement. -/
def specClaimInadmissibleDoTerminator (st : SemaState) (S : StmtKind) : Bool :=
  match S with
  | .gotoStmt _ => true
  | .assignedGotoStmt _ _ => true
  | .stopStmt => true
  | .doStmt _ _ => true
  | .doWhileStmt => true
  | .constructPart _ => true
  | .ifStmt thenStmt _ =>
    match thenStmt with
    | some tid =>
      match stmtKindOf st tid with
      | some (.doStmt _ _) => true
      | some .doWhileStmt => true
      | some (.ifStmt _ _) => true
      | some (.constructPart _) => true
      | _ => false
    | none => false
  | _ => false


/-- The patch obligation of one pending request, following the claim's
wording: a GOTO owner's destination slot holds the newly declared statement,
an assigned-GOTO owner's allowed-target entry at the recorded slot index
holds it, and a DO owner's terminator slot holds it; owners of other kinds
carry no obligation in the claim. -/
def nodePatched (slot : Nat) (S : StmtId) (n : StmtNode) : Prop :=
  match n.kind with
  | .gotoStmt d => d = some S
  | .assignedGotoStmt _ al => al.get? slot = some (some S)
  | .doStmt _ t => t = some S
  | _ => True

/-- A node's assigned-goto slot list is long enough for a recorded slot index
(vacuous for every other kind). -/
def nodeSlotInRange (slot : Nat) (n : StmtNode) : Prop :=
  ∀ v al, n.kind = StmtKind.assignedGotoStmt v al → slot < al.length

/-- Decidable form of the slot-range side condition of a pending request. -/
def fdSlotInRange (st : SemaState) (fd : ForwardDecl) : Bool :=
  match stmtKindOf st fd.Statement with
  | some (.assignedGotoStmt _ al) => decide (fd.ResolveCallbackData < al.length)
  | _ => true

/-- The statement kinds the label resolver's dispatch patches; on any other
kind the dispatch is the identity (the StmtVisitor base case). -/
def isPatchableKind (k : StmtKind) : Bool :=
  match k with
  | .assignStmt _ _ => true
  | .assignedGotoStmt _ _ => true
  | .gotoStmt _ => true
  | .computedGotoStmt _ => true
  | .doStmt _ _ => true
  | _ => false


theorem getStmt_arena_congr {st1 st2 : SemaState} (h : st1.arena = st2.arena)
    (i : StmtId) : getStmt st1 i = getStmt st2 i := by
  simp [getStmt, h]

theorem stmtKindOf_arena_congr {st1 st2 : SemaState} (h : st1.arena = st2.arena)
    (i : StmtId) : stmtKindOf st1 i = stmtKindOf st2 i := by
  simp [stmtKindOf, getStmt, h]

theorem isIfEntry_arena_congr {st1 st2 : SemaState} (h : st1.arena = st2.arena)
    (e : Entry) : isIfEntry st1 e = isIfEntry st2 e := by
  simp [isIfEntry, stmtKindOf_arena_congr h]

theorem isEndDoTarget_arena_congr {st1 st2 : SemaState} (h : st1.arena = st2.arena)
    (e : Entry) : isEndDoTarget st1 e = isEndDoTarget st2 e := by
  simp [isEndDoTarget, stmtKindOf_arena_congr h]

theorem isLabeledDoMatch_arena_congr {st1 st2 : SemaState} (h : st1.arena = st2.arena)
    (e : Entry) (lbl : Nat) : isLabeledDoMatch st1 e lbl = isLabeledDoMatch st2 e lbl := by
  simp [isLabeledDoMatch, stmtKindOf_arena_congr h]

theorem unterminatedStmtDiags_arena_congr {st1 st2 : SemaState}
    (h : st1.arena = st2.arena) (e : Entry) (b : Bool) :
    unterminatedStmtDiags st1 e b = unterminatedStmtDiags st2 e b := by
  simp [unterminatedStmtDiags, stmtKindOf_arena_congr h]

/-- One non-matching unwind step: report the top entry and leave its block. -/
theorem unwindPop_eq (st : SemaState) (e : Entry) (rest : List Entry)
    (h : st.ControlFlowStack = e :: rest) :
    LeaveLastBlock (ReportUnterminatedStmt st e reportUnterminatedLabeledDoDefault) =
    { st with
      diags := st.diags ++ unterminatedStmtDiags st e reportUnterminatedLabeledDoDefault,
      loopVars := eraseEntryLoopVar st st.loopVars e,
      ControlFlowStack := rest } := by
  unfold LeaveLastBlock ReportUnterminatedStmt BlockStmtBuilder.LastEntered
    BlockStmtBuilder.Leave addDiags eraseEntryLoopVar RemoveLoopVar
  simp only [h, List.head?_cons, List.tail_cons, stmtKindOf, getStmt]
  cases hk : (st.arena.get? e.Statement).map (fun n => n.kind) with
  | none => rfl
  | some k =>
    cases k <;> try rfl
    rename_i v t
    cases v <;> rfl

theorem unwoundDiags_arena_congr {st1 st2 : SemaState} (h : st1.arena = st2.arena)
    (l : List Entry) : unwoundDiags st1 l = unwoundDiags st2 l := by
  unfold unwoundDiags
  congr 1
  exact List.map_congr_left (fun x _ => unterminatedStmtDiags_arena_congr h x _)

/-- Unwinding with the sought entry present: every entry above the first
sought entry is reported and popped; the sought entry is returned and kept. -/
theorem leaveBlocksUntilGo_found (sought : SemaState → Entry → Bool)
    (hcong : ∀ (st1 st2 : SemaState), st1.arena = st2.arena →
      ∀ e, sought st1 e = sought st2 e)
    (upper : List Entry) :
    ∀ (st : SemaState) (e : Entry) (rest : List Entry),
      st.ControlFlowStack = upper ++ e :: rest →
      (∀ x ∈ upper, sought st x = false) →
      sought st e = true →
      ∃ lv, LeaveBlocksUntilGo sought st.ControlFlowStack.length st =
        (some e.Statement,
          { st with diags := st.diags ++ unwoundDiags st upper,
                    loopVars := lv,
                    ControlFlowStack := e :: rest }) := by
  induction upper with
  | nil =>
    intro st e rest hstack hupper he
    rw [List.nil_append] at hstack
    refine ⟨st.loopVars, ?_⟩
    rw [hstack, List.length_cons]
    simp only [LeaveBlocksUntilGo, hstack, List.head?_cons, he, if_true]
    simp only [unwoundDiags, List.map_nil, List.flatten_nil, List.append_nil]
    rw [← hstack]
  | cons u upper2 ih =>
    intro st e rest hstack hupper he
    rw [List.cons_append] at hstack
    have hu : sought st u = false := hupper u (by simp)
    have hpop := unwindPop_eq st u (upper2 ++ e :: rest) hstack
    set st1 : SemaState :=
      { st with
        diags := st.diags ++ unterminatedStmtDiags st u reportUnterminatedLabeledDoDefault,
        loopVars := eraseEntryLoopVar st st.loopVars u,
        ControlFlowStack := upper2 ++ e :: rest } with hst1
    have harena : st1.arena = st.arena := rfl
    have hlen : st.ControlFlowStack.length = (upper2 ++ e :: rest).length + 1 := by
      rw [hstack, List.length_cons]
    have hstep : LeaveBlocksUntilGo sought st.ControlFlowStack.length st =
        LeaveBlocksUntilGo sought (upper2 ++ e :: rest).length st1 := by
      rw [hlen]
      simp only [LeaveBlocksUntilGo, hstack, List.head?_cons, hu, if_false, Bool.false_eq_true]
      rw [hpop]
    obtain ⟨lv, hrec⟩ := ih st1 e rest rfl
      (fun x hx => by rw [hcong st1 st harena x]; exact hupper x (by simp [hx]))
      (by rw [hcong st1 st harena e]; exact he)
    have hlen1 : st1.ControlFlowStack.length = (upper2 ++ e :: rest).length := rfl
    rw [hlen1] at hrec
    refine ⟨lv, ?_⟩
    rw [hstep, hrec]
    have h2 : unwoundDiags st1 upper2 = unwoundDiags st upper2 :=
      unwoundDiags_arena_congr harena upper2
    have hwcons : unwoundDiags st (u :: upper2) =
        unterminatedStmtDiags st u reportUnterminatedLabeledDoDefault ++
          unwoundDiags st upper2 := by
      simp [unwoundDiags]
    have hdiags : st1.diags ++ unwoundDiags st1 upper2 =
        st.diags ++ unwoundDiags st (u :: upper2) := by
      rw [h2, hwcons]
      have h1 : st1.diags = st.diags ++
          unterminatedStmtDiags st u reportUnterminatedLabeledDoDefault := rfl
      rw [h1, List.append_assoc]
    rw [hdiags]

/-- Unwinding with no sought entry anywhere: every entry is reported and
popped and the search returns none on the emptied stack. -/
theorem leaveBlocksUntilGo_empty (sought : SemaState → Entry → Bool)
    (hcong : ∀ (st1 st2 : SemaState), st1.arena = st2.arena →
      ∀ e, sought st1 e = sought st2 e)
    (upper : List Entry) :
    ∀ (st : SemaState),
      st.ControlFlowStack = upper →
      (∀ x ∈ upper, sought st x = false) →
      ∃ lv, LeaveBlocksUntilGo sought st.ControlFlowStack.length st =
        (none,
          { st with diags := st.diags ++ unwoundDiags st upper,
                    loopVars := lv,
                    ControlFlowStack := [] }) := by
  induction upper with
  | nil =>
    intro st hstack hupper
    refine ⟨st.loopVars, ?_⟩
    rw [hstack]
    simp only [List.length_nil, LeaveBlocksUntilGo]
    simp only [unwoundDiags, List.map_nil, List.flatten_nil, List.append_nil]
    rw [← hstack]
  | cons u upper2 ih =>
    intro st hstack hupper
    have hu : sought st u = false := hupper u (by simp)
    have hpop := unwindPop_eq st u upper2 hstack
    set st1 : SemaState :=
      { st with
        diags := st.diags ++ unterminatedStmtDiags st u reportUnterminatedLabeledDoDefault,
        loopVars := eraseEntryLoopVar st st.loopVars u,
        ControlFlowStack := upper2 } with hst1
    have harena : st1.arena = st.arena := rfl
    have hlen : st.ControlFlowStack.length = upper2.length + 1 := by
      rw [hstack, List.length_cons]
    have hstep : LeaveBlocksUntilGo sought st.ControlFlowStack.length st =
        LeaveBlocksUntilGo sought upper2.length st1 := by
      rw [hlen]
      simp only [LeaveBlocksUntilGo, hstack, List.head?_cons, hu, if_false, Bool.false_eq_true]
      rw [hpop]
    obtain ⟨lv, hrec⟩ := ih st1 rfl
      (fun x hx => by rw [hcong st1 st harena x]; exact hupper x (by simp [hx]))
    have hlen1 : st1.ControlFlowStack.length = upper2.length := rfl
    rw [hlen1] at hrec
    refine ⟨lv, ?_⟩
    rw [hstep, hrec]
    have h2 : unwoundDiags st1 upper2 = unwoundDiags st upper2 :=
      unwoundDiags_arena_congr harena upper2
    have hwcons : unwoundDiags st (u :: upper2) =
        unterminatedStmtDiags st u reportUnterminatedLabeledDoDefault ++
          unwoundDiags st upper2 := by
      simp [unwoundDiags]
    have hdiags : st1.diags ++ unwoundDiags st1 upper2 =
        st.diags ++ unwoundDiags st (u :: upper2) := by
      rw [h2, hwcons]
      have h1 : st1.diags = st.diags ++
          unterminatedStmtDiags st u reportUnterminatedLabeledDoDefault := rfl
      rw [h1, List.append_assoc]
    rw [hdiags]

/-- The arena-only congruence of the three unwind predicates. -/
theorem isIfEntry_cong : ∀ (st1 st2 : SemaState), st1.arena = st2.arena →
    ∀ e, isIfEntry st1 e = isIfEntry st2 e :=
  fun _ _ h e => isIfEntry_arena_congr h e

theorem isEndDoTarget_cong : ∀ (st1 st2 : SemaState), st1.arena = st2.arena →
    ∀ e, isEndDoTarget st1 e = isEndDoTarget st2 e :=
  fun _ _ h e => isEndDoTarget_arena_congr h e

theorem isLabeledDoMatch_cong (lbl : Nat) : ∀ (st1 st2 : SemaState),
    st1.arena = st2.arena →
    ∀ e, isLabeledDoMatch st1 e lbl = isLabeledDoMatch st2 e lbl :=
  fun _ _ h e => isLabeledDoMatch_arena_congr h e lbl

-- ===========================================================================
-- Claim theorems
-- ===========================================================================

/-- C10: every statement-label expression used as a key for Declare or
Resolve is converted to its integer constant value clamped to the maximum of
the StmtLabelInteger type, so two label expressions whose values both exceed
that maximum get the same (clamped) key and are treated as the same label by
the label table: IsSame holds of them, Resolve cannot distinguish them, and
Declare of one makes Resolve of the other find the same statement. -/
theorem flang_C10 (e1 e2 : Nat) (h1 : stmtLabelIntegerMax < e1)
    (h2 : stmtLabelIntegerMax < e2) :
    GetStmtLabelValue e1 = stmtLabelIntegerMax ∧
    GetStmtLabelValue e1 = GetStmtLabelValue e2 ∧
    StmtLabelScope.IsSame e1 e2 = true ∧
    (∀ st : SemaState, StmtLabelScope.Resolve st e1 = StmtLabelScope.Resolve st e2) ∧
    (∀ (st : SemaState) (s : StmtId),
      StmtLabelScope.Declare st e1 s = StmtLabelScope.Declare st e2 s) := by
  have k1 : GetStmtLabelValue e1 = stmtLabelIntegerMax := by
    unfold GetStmtLabelValue
    omega
  have k2 : GetStmtLabelValue e2 = stmtLabelIntegerMax := by
    unfold GetStmtLabelValue
    omega
  have keq : GetStmtLabelValue e1 = GetStmtLabelValue e2 := by rw [k1, k2]
  refine ⟨k1, keq, ?_, ?_, ?_⟩
  · simp [StmtLabelScope.IsSame, keq]
  · intro st
    unfold StmtLabelScope.Resolve
    rw [keq]
  · intro st s
    unfold StmtLabelScope.Declare
    rw [keq]

/-- C10 witness: the clamping and key collision at two concrete label values
above the StmtLabelInteger maximum. -/
theorem flang_C10_witness :
    stmtLabelIntegerMax < 2 ^ 32 ∧ stmtLabelIntegerMax < 2 ^ 32 + 7 ∧
    GetStmtLabelValue (2 ^ 32) = GetStmtLabelValue (2 ^ 32 + 7) := by
  have h1 : stmtLabelIntegerMax < 2 ^ 32 := by norm_num [stmtLabelIntegerMax]
  have h2 : stmtLabelIntegerMax < 2 ^ 32 + 7 := by norm_num [stmtLabelIntegerMax]
  exact ⟨h1, h2, (flang_C10 (2 ^ 32) (2 ^ 32 + 7) h1 h2).2.1⟩

/-- C4: declaring a statement-label value already declared in the scope emits
exactly one duplicate-label diagnostic (followed by the note at the previous
declaration) and leaves the label table untouched, so Resolve still returns
the first declaring statement; at the label-table level a second Declare of
the same key is a no-op, so after two Declares the first statement wins. -/
theorem flang_C4 (st st0 : SemaState) (lbl : Nat) (prev s1 s2 : StmtId)
    (h : StmtLabelScope.Resolve st lbl = some prev)
    (h0 : StmtLabelScope.Resolve st0 lbl = none) :
    (DeclareStatementLabel st lbl s2).diags =
      st.diags ++ [Diag.duplicateStmtLabel (GetStmtLabelValue lbl),
        Diag.notePreviousDefinition] ∧
    ((DeclareStatementLabel st lbl s2).diags.count
        (Diag.duplicateStmtLabel (GetStmtLabelValue lbl)) =
      st.diags.count (Diag.duplicateStmtLabel (GetStmtLabelValue lbl)) + 1) ∧
    StmtLabelScope.Resolve (DeclareStatementLabel st lbl s2) lbl = some prev ∧
    (DeclareStatementLabel st lbl s2).StmtLabelDeclsInScope =
      st.StmtLabelDeclsInScope ∧
    StmtLabelScope.Resolve
      (StmtLabelScope.Declare (StmtLabelScope.Declare st0 lbl s1) lbl s2) lbl =
      some s1 := by
  have hdup : DeclareStatementLabel st lbl s2 =
      addDiags st [Diag.duplicateStmtLabel (GetStmtLabelValue lbl),
        Diag.notePreviousDefinition] := by
    unfold DeclareStatementLabel
    rw [h]
  have hfind0 : st0.StmtLabelDeclsInScope.find?
      (fun p => p.1 == GetStmtLabelValue lbl) = none := by
    unfold StmtLabelScope.Resolve at h0
    exact Option.map_eq_none.mp h0
  have hdecl1 : StmtLabelScope.Declare st0 lbl s1 =
      { st0 with StmtLabelDeclsInScope :=
        st0.StmtLabelDeclsInScope ++ [(GetStmtLabelValue lbl, s1)] } := by
    unfold StmtLabelScope.Declare
    simp only [hfind0]
  refine ⟨?_, ?_, ?_, ?_, ?_⟩
  · rw [hdup]
    rfl
  · rw [hdup]
    simp [addDiags]
  · rw [hdup]
    exact h
  · rw [hdup]
    rfl
  · rw [hdecl1]
    have hfind1 : (st0.StmtLabelDeclsInScope ++
        [(GetStmtLabelValue lbl, s1)]).find? (fun p => p.1 == GetStmtLabelValue lbl) =
        some (GetStmtLabelValue lbl, s1) := by
      rw [List.find?_append, hfind0]
      simp
    unfold StmtLabelScope.Declare StmtLabelScope.Resolve
    simp only [hfind1]
    rfl

/-- C4 witness: a scope with label 10 already declared for statement 0; the
second declaration reports one duplicate and statement 0 stays the
resolution. -/
theorem flang_C4_witness :
    StmtLabelScope.Resolve
      { StmtLabelDeclsInScope := [(10, 0)] } 10 = some 0 ∧
    StmtLabelScope.Resolve ({} : SemaState) 10 = none ∧
    StmtLabelScope.Resolve
      (DeclareStatementLabel { StmtLabelDeclsInScope := [(10, 0)] } 10 1) 10 =
      some 0 := by
  have h : StmtLabelScope.Resolve { StmtLabelDeclsInScope := [(10, 0)] } 10 = some 0 := by
    decide
  have h0 : StmtLabelScope.Resolve ({} : SemaState) 10 = none := by decide
  exact ⟨h, h0,
    (flang_C4 { StmtLabelDeclsInScope := [(10, 0)] } {} 10 0 0 1 h h0).2.2.1⟩

/-- C9: acting on a DO statement whose explicit terminal label is already
declared in the current label scope reports the label-must-be-declared-after
error with a note at the previous definition and returns an error result,
leaving every piece of state except the diagnostics unchanged: no statement
is created or appended, nothing is pushed on the open-construct stack, no
forward reference is registered, and no loop variable becomes active. -/
theorem flang_C9 (st : SemaState) (term : Nat) (prev : StmtId)
    (DoVar : Option VarId) (e1Usable e2Usable : Bool) (Name StmtLabel : Option Nat)
    (h : StmtLabelScope.Resolve st term = some prev) :
    ActOnDoStmt st (some term) DoVar e1Usable e2Usable Name StmtLabel =
      (none, addDiags st
        [Diag.stmtLabelMustDeclAfter term "DO", Diag.notePreviousDefinition]) ∧
    (ActOnDoStmt st (some term) DoVar e1Usable e2Usable Name StmtLabel).2.arena =
      st.arena ∧
    (ActOnDoStmt st (some term) DoVar e1Usable e2Usable Name StmtLabel).2.body =
      st.body ∧
    (ActOnDoStmt st (some term) DoVar e1Usable e2Usable Name StmtLabel).2.ControlFlowStack =
      st.ControlFlowStack ∧
    (ActOnDoStmt st (some term) DoVar e1Usable e2Usable Name
        StmtLabel).2.ForwardStmtLabelDeclsInScope =
      st.ForwardStmtLabelDeclsInScope ∧
    (ActOnDoStmt st (some term) DoVar e1Usable e2Usable Name StmtLabel).2.loopVars =
      st.loopVars ∧
    (ActOnDoStmt st (some term) DoVar e1Usable e2Usable Name
        StmtLabel).2.StmtLabelDeclsInScope = st.StmtLabelDeclsInScope := by
  have hmain : ActOnDoStmt st (some term) DoVar e1Usable e2Usable Name StmtLabel =
      (none, addDiags st
        [Diag.stmtLabelMustDeclAfter term "DO", Diag.notePreviousDefinition]) := by
    unfold ActOnDoStmt
    simp only [h]
  rw [hmain]
  exact ⟨rfl, rfl, rfl, rfl, rfl, rfl, rfl⟩

/-- C9 witness: a DO whose terminal label 10 is already declared. -/
theorem flang_C9_witness :
    StmtLabelScope.Resolve { StmtLabelDeclsInScope := [(10, 0)] } 10 = some 0 ∧
    ActOnDoStmt { StmtLabelDeclsInScope := [(10, 0)] } (some 10) (some 3) true true
        none none =
      (none, addDiags { StmtLabelDeclsInScope := [(10, 0)] }
        [Diag.stmtLabelMustDeclAfter 10 "DO", Diag.notePreviousDefinition]) := by
  have h : StmtLabelScope.Resolve { StmtLabelDeclsInScope := [(10, 0)] } 10 = some 0 := by
    decide
  exact ⟨h,
    (flang_C9 { StmtLabelDeclsInScope := [(10, 0)] } 10 0 (some 3) true true
      none none h).1⟩

/-- LeaveLastBlock on a non-empty stack: the loop-variable release and pop. -/
theorem LeaveLastBlock_spec (st : SemaState) (e : Entry) (rest : List Entry)
    (hstack : st.ControlFlowStack = e :: rest) :
    LeaveLastBlock st =
    { st with loopVars := eraseEntryLoopVar st st.loopVars e,
              ControlFlowStack := rest } := by
  unfold LeaveLastBlock BlockStmtBuilder.LastEntered BlockStmtBuilder.Leave
    eraseEntryLoopVar RemoveLoopVar
  simp only [hstack, List.head?_cons, List.tail_cons, stmtKindOf, getStmt]
  cases hk : (st.arena.get? e.Statement).map (fun n => n.kind) with
  | none => simp [hstack]
  | some k =>
    cases k <;> try simp [hstack]
    rename_i v t
    cases v <;> simp [hstack]

/-- DoStmt::setTerminatingStmt on a statement known to be a DO. -/
theorem setTerminatingStmt_spec (st : SemaState) (did : StmtId) (nd : StmtNode)
    (dv : Option VarId) (t0 : Option StmtId) (sid : StmtId)
    (hnd : getStmt st did = some nd) (hkind : nd.kind = .doStmt dv t0) :
    setTerminatingStmt st did (some sid) =
    { st with arena := st.arena.set did { nd with kind := .doStmt dv (some sid) } } := by
  unfold setTerminatingStmt modifyStmt setStmt
  simp only [getStmt] at hnd
  simp only [hnd, hkind]

/-- IsValidDoTerminatingStatement reads the state only through the arena. -/
theorem IsValidDoTerminatingStatement_arena_congr {st1 st2 : SemaState}
    (h : st1.arena = st2.arena) (S : StmtKind) :
    IsValidDoTerminatingStatement st1 S = IsValidDoTerminatingStatement st2 S := by
  cases S <;> try rfl
  rename_i thenStmt els
  cases thenStmt with
  | none => rfl
  | some tid =>
    show (match stmtKindOf st1 tid with
      | some tk => IsValidDoLogicalIfThenStatement tk
      | none => false) = _
    rw [stmtKindOf_arena_congr h tid]
    rfl

/-- Full characterization of Sema::CheckStatementLabelEndDo when the stack
holds a matching labeled DO under a (possibly empty) prefix of non-matching
entries: the prefix is reported and popped, the DO's pending forward
reference is removed, the invalid-terminator diagnostic is emitted exactly
when the candidate is inadmissible, the DO's terminator slot is set to the
candidate, and the DO itself is popped. -/
theorem checkEndDo_spec (st : SemaState) (upper : List Entry) (did : StmtId)
    (L2 L : Nat) (rest : List Entry) (nd : StmtNode) (dv : Option VarId)
    (t0 : Option StmtId) (sid : StmtId)
    (hstack : st.ControlFlowStack = upper ++ ⟨did, some L2⟩ :: rest)
    (hupper : ∀ x ∈ upper, isLabeledDoMatch st x L = false)
    (hsame : StmtLabelScope.IsSame L2 L = true)
    (hnd : getStmt st did = some nd)
    (hkind : nd.kind = .doStmt dv t0) :
    ∃ lv, CheckStatementLabelEndDo st L sid =
      { st with
        arena := st.arena.set did { nd with kind := .doStmt dv (some sid) },
        ControlFlowStack := rest,
        ForwardStmtLabelDeclsInScope := st.ForwardStmtLabelDeclsInScope.filter (fun fd => fd.Statement ≠ did),
        loopVars := lv,
        diags := st.diags ++ unwoundDiags st upper ++ invalidDoTerminatorDiags st sid } := by
  have hmatch : isLabeledDoMatch st ⟨did, some L2⟩ L = true := by
    unfold isLabeledDoMatch
    simp only [stmtKindOf, hnd, Option.map_some', hkind]
    exact hsame
  have hHas : BlockStmtBuilder.HasEntered st = true := by
    unfold BlockStmtBuilder.HasEntered
    rw [hstack]
    cases upper <;> simp
  have hIn : IsInLabeledDo st L = true := by
    unfold IsInLabeledDo
    rw [List.any_eq_true]
    refine ⟨⟨did, some L2⟩, ?_, hmatch⟩
    rw [hstack]
    exact List.mem_append_right _ (List.mem_cons_self _ _)
  obtain ⟨lv1, hgo⟩ := leaveBlocksUntilGo_found
    (fun s e => isLabeledDoMatch s e L) (isLabeledDoMatch_cong L) upper st
    ⟨did, some L2⟩ rest hstack hupper hmatch
  set stU : SemaState :=
    { st with diags := st.diags ++ unwoundDiags st upper,
              loopVars := lv1,
              ControlFlowStack := ⟨did, some L2⟩ :: rest } with hstU
  have hunwind : LeaveBlocksUntilLabeledDo st L = (some did, stU) := hgo
  set fwdRemaining := st.ForwardStmtLabelDeclsInScope.filter (fun fd => fd.Statement ≠ did) with hfwdR
  set stF : SemaState := { stU with ForwardStmtLabelDeclsInScope := fwdRemaining } with hstF
  have hremove : StmtLabelScope.RemoveForwardReference stU did = stF := rfl
  set stD : SemaState := { stF with diags := stF.diags ++ invalidDoTerminatorDiags st sid }
    with hstD
  have harenaF : stF.arena = st.arena := rfl
  have hdiagstep :
      (match stmtKindOf stF sid with
        | some k =>
          if !IsValidDoTerminatingStatement stF k then
            addDiag stF Diag.invalidDoTerminatingStmt
          else stF
        | none => stF) = stD := by
    rw [show stmtKindOf stF sid = stmtKindOf st sid from stmtKindOf_arena_congr harenaF sid]
    rw [hstD]
    unfold invalidDoTerminatorDiags
    cases hk : stmtKindOf st sid with
    | none => simp [addDiags]
    | some k =>
      have hvc : IsValidDoTerminatingStatement stF k = IsValidDoTerminatingStatement st k :=
        IsValidDoTerminatingStatement_arena_congr harenaF k
      show (if (!IsValidDoTerminatingStatement stF k) = true then
          addDiag stF Diag.invalidDoTerminatingStmt
        else stF) =
        { stF with diags := stF.diags ++
            (if (!IsValidDoTerminatingStatement st k) = true then
              [Diag.invalidDoTerminatingStmt] else []) }
      rw [hvc]
      cases hv : IsValidDoTerminatingStatement st k with
      | false => simp [addDiag, addDiags]
      | true => simp [addDiags]
  have hndD : getStmt stD did = some nd := hnd
  have hset : setTerminatingStmt stD did (some sid) =
      { stD with arena := st.arena.set did { nd with kind := .doStmt dv (some sid) } } :=
    setTerminatingStmt_spec stD did nd dv t0 sid hndD hkind
  set stT : SemaState :=
    { stD with arena := st.arena.set did { nd with kind := .doStmt dv (some sid) } }
    with hstT
  have hstackT : stT.ControlFlowStack = (⟨did, some L2⟩ : Entry) :: rest := rfl
  have hleave := LeaveLastBlock_spec stT ⟨did, some L2⟩ rest hstackT
  refine ⟨eraseEntryLoopVar stT lv1 ⟨did, some L2⟩, ?_⟩
  show CheckStatementLabelEndDo st L sid = _
  unfold CheckStatementLabelEndDo
  rw [hHas, hIn]
  simp only [Bool.not_true, Bool.false_eq_true, if_false, hunwind]
  rw [hremove, hdiagstep, hset, hleave]

/-- C2: when a statement carrying label L is acted on while a DO waiting for
L sits on the open-construct stack (under a possibly empty prefix of entries
none of which is a labeled DO matching L), the outcome is exactly: every
construct still open above the DO is reported as unterminated and popped, the
DO's pending forward reference is removed from the label scope, the DO's
terminator field is set to reference the labeled statement, and the DO entry
is popped off the stack. -/
theorem flang_C2 (st : SemaState) (upper : List Entry) (did : StmtId)
    (L2 L : Nat) (rest : List Entry) (nd : StmtNode) (dv : Option VarId)
    (t0 : Option StmtId) (sid : StmtId)
    (hstack : st.ControlFlowStack = upper ++ ⟨did, some L2⟩ :: rest)
    (hupper : ∀ x ∈ upper, isLabeledDoMatch st x L = false)
    (hsame : StmtLabelScope.IsSame L2 L = true)
    (hnd : getStmt st did = some nd)
    (hkind : nd.kind = .doStmt dv t0) :
    (∃ lv, CheckStatementLabelEndDo st L sid =
      { st with
        arena := st.arena.set did { nd with kind := .doStmt dv (some sid) },
        ControlFlowStack := rest,
        ForwardStmtLabelDeclsInScope := st.ForwardStmtLabelDeclsInScope.filter (fun fd => fd.Statement ≠ did),
        loopVars := lv,
        diags := st.diags ++ unwoundDiags st upper ++ invalidDoTerminatorDiags st sid }) ∧
    (CheckStatementLabelEndDo st L sid).ControlFlowStack = rest ∧
    (∀ fd ∈ (CheckStatementLabelEndDo st L sid).ForwardStmtLabelDeclsInScope,
      fd.Statement ≠ did) ∧
    getStmt (CheckStatementLabelEndDo st L sid) did =
      some { nd with kind := .doStmt dv (some sid) } := by
  obtain ⟨lv, h⟩ := checkEndDo_spec st upper did L2 L rest nd dv t0 sid
    hstack hupper hsame hnd hkind
  have hlt : did < st.arena.length := by
    have : st.arena.get? did = some nd := hnd
    have := List.get?_eq_some.mp this
    exact this.1
  refine ⟨⟨lv, h⟩, ?_, ?_, ?_⟩
  · rw [h]
  · rw [h]
    intro fd hfd
    simp only [List.mem_filter, decide_eq_true_eq] at hfd
    exact hfd.2
  · rw [h]
    show (st.arena.set did { nd with kind := .doStmt dv (some sid) }).get? did = _
    exact List.get?_set_eq_of_lt _ hlt

/-- C2 witness: the DO at index 0 waits for label 20 under an open IF at
index 1; the CONTINUE at index 2 declared with label 20 terminates it: the IF
is reported unterminated and popped, the DO forward reference disappears, the
terminator is set to 2 and the DO is popped. -/
theorem flang_C2_witness :
    (CheckStatementLabelEndDo
      { arena := [{ kind := .doStmt (some 7) none }, { kind := .ifStmt none none },
          { kind := .continueStmt, stmtLabel := some 20 }],
        ControlFlowStack := [⟨1, none⟩, ⟨0, some 20⟩],
        ForwardStmtLabelDeclsInScope := [⟨20, 0, 0⟩],
        loopVars := [7] } 20 2).ControlFlowStack = [] ∧
    (∀ fd ∈ (CheckStatementLabelEndDo
      { arena := [{ kind := .doStmt (some 7) none }, { kind := .ifStmt none none },
          { kind := .continueStmt, stmtLabel := some 20 }],
        ControlFlowStack := [⟨1, none⟩, ⟨0, some 20⟩],
        ForwardStmtLabelDeclsInScope := [⟨20, 0, 0⟩],
        loopVars := [7] } 20 2).ForwardStmtLabelDeclsInScope, fd.Statement ≠ 0) ∧
    getStmt (CheckStatementLabelEndDo
      { arena := [{ kind := .doStmt (some 7) none }, { kind := .ifStmt none none },
          { kind := .continueStmt, stmtLabel := some 20 }],
        ControlFlowStack := [⟨1, none⟩, ⟨0, some 20⟩],
        ForwardStmtLabelDeclsInScope := [⟨20, 0, 0⟩],
        loopVars := [7] } 20 2) 0 =
      some { kind := StmtKind.doStmt (some 7) (some 2) } := by
  exact (flang_C2
    { arena := [{ kind := .doStmt (some 7) none }, { kind := .ifStmt none none },
        { kind := .continueStmt, stmtLabel := some 20 }],
      ControlFlowStack := [⟨1, none⟩, ⟨0, some 20⟩],
      ForwardStmtLabelDeclsInScope := [⟨20, 0, 0⟩],
      loopVars := [7] }
    [⟨1, none⟩] 0 20 20 [] { kind := .doStmt (some 7) none } (some 7) none 2
    rfl (by decide) (by decide) rfl rfl).2

/-- C6: the unwind-until-kind recovery used by the ELSE-IF/ELSE/END-IF and
END-DO actions scans the open-construct stack top-down, reports every entry
that is not of the sought kind with the unterminated-construct diagnostics
phrased for that entry's own statement kind and pops it, stops at and returns
the first entry of the sought kind, and returns none after emptying the
stack, in which case the END IF / END DO actions report the
closer-without-opener diagnostic. -/
theorem flang_C6 :
    (∀ (st : SemaState) (upper : List Entry) (e : Entry) (rest : List Entry),
      st.ControlFlowStack = upper ++ e :: rest →
      (∀ x ∈ upper, isIfEntry st x = false) →
      isIfEntry st e = true →
      ∃ lv, LeaveBlocksUntilIf st = (some e.Statement,
        { st with diags := st.diags ++ unwoundDiags st upper, loopVars := lv, ControlFlowStack := e :: rest })) ∧
    (∀ (st : SemaState),
      (∀ x ∈ st.ControlFlowStack, isIfEntry st x = false) →
      ∃ lv, LeaveBlocksUntilIf st = (none,
        { st with diags := st.diags ++ unwoundDiags st st.ControlFlowStack, loopVars := lv, ControlFlowStack := [] })) ∧
    (∀ (st : SemaState) (upper : List Entry) (e : Entry) (rest : List Entry),
      st.ControlFlowStack = upper ++ e :: rest →
      (∀ x ∈ upper, isEndDoTarget st x = false) →
      isEndDoTarget st e = true →
      ∃ lv, LeaveBlocksUntilDo st = (some e.Statement,
        { st with diags := st.diags ++ unwoundDiags st upper, loopVars := lv, ControlFlowStack := e :: rest })) ∧
    (∀ (st : SemaState),
      (∀ x ∈ st.ControlFlowStack, isEndDoTarget st x = false) →
      ∃ lv, LeaveBlocksUntilDo st = (none,
        { st with diags := st.diags ++ unwoundDiags st st.ControlFlowStack, loopVars := lv, ControlFlowStack := [] })) ∧
    (∀ (st : SemaState),
      (∀ x ∈ st.ControlFlowStack, isIfEntry st x = false) →
      (ActOnEndIfStmt st none none).2.diags =
        st.diags ++ unwoundDiags st st.ControlFlowStack ++ [Diag.stmtNotInIf "end if"]) ∧
    (∀ (st : SemaState),
      (∀ x ∈ st.ControlFlowStack, isEndDoTarget st x = false) →
      (ActOnEndDoStmt st none none).2.diags =
        st.diags ++ unwoundDiags st st.ControlFlowStack ++ [Diag.endDoWithoutDo]) := by
  refine ⟨?_, ?_, ?_, ?_, ?_, ?_⟩
  · intro st upper e rest hstack hupper he
    exact leaveBlocksUntilGo_found isIfEntry isIfEntry_cong upper st e rest hstack hupper he
  · intro st hupper
    exact leaveBlocksUntilGo_empty isIfEntry isIfEntry_cong st.ControlFlowStack st rfl hupper
  · intro st upper e rest hstack hupper he
    exact leaveBlocksUntilGo_found isEndDoTarget isEndDoTarget_cong upper st e rest hstack
      hupper he
  · intro st hupper
    exact leaveBlocksUntilGo_empty isEndDoTarget isEndDoTarget_cong st.ControlFlowStack st
      rfl hupper
  · intro st hupper
    obtain ⟨lv, hE⟩ := leaveBlocksUntilGo_empty isIfEntry isIfEntry_cong
      st.ControlFlowStack st rfl hupper
    have hunw : LeaveBlocksUntilIf st = (none, { st with diags := st.diags ++ unwoundDiags st st.ControlFlowStack, loopVars := lv, ControlFlowStack := [] }) := hE
    unfold ActOnEndIfStmt
    rw [hunw]
    simp [addDiag, newStmt, BlockStmtBuilder.Append, declareLabelIfPresent]
  · intro st hupper
    obtain ⟨lv, hE⟩ := leaveBlocksUntilGo_empty isEndDoTarget isEndDoTarget_cong
      st.ControlFlowStack st rfl hupper
    have hunw : LeaveBlocksUntilDo st = (none, { st with diags := st.diags ++ unwoundDiags st st.ControlFlowStack, loopVars := lv, ControlFlowStack := [] }) := hE
    unfold ActOnEndDoStmt
    rw [hunw]
    simp [addDiag, newStmt, BlockStmtBuilder.Append, declareLabelIfPresent]

/-- C6 witness: an open-construct stack holding a DO-WHILE under an IF: the
END IF unwind reports the DO-WHILE as unterminated ("end do" expected), pops
it and returns the IF below; on a stack with only the DO-WHILE popped, END IF
reports end-if-without-if after the unwind. -/
theorem flang_C6_witness :
    (∃ lv, LeaveBlocksUntilIf
      { arena := [{ kind := .doWhileStmt }, { kind := .ifStmt none none }],
        ControlFlowStack := [⟨0, none⟩, ⟨1, none⟩] } =
      (some 1,
        { ({ arena := [{ kind := .doWhileStmt }, { kind := .ifStmt none none }],
             ControlFlowStack := [⟨0, none⟩, ⟨1, none⟩] } : SemaState) with
          diags := [Diag.expectedKw "end do", Diag.noteMatching "do"],
          loopVars := lv,
          ControlFlowStack := [⟨1, none⟩] })) ∧
    (ActOnEndIfStmt { arena := [{ kind := .doWhileStmt }], ControlFlowStack := [⟨0, none⟩] } none none).2.diags =
      [Diag.expectedKw "end do", Diag.noteMatching "do", Diag.stmtNotInIf "end if"] := by
  constructor
  · obtain ⟨lv, h⟩ := flang_C6.1
      { arena := [{ kind := .doWhileStmt }, { kind := .ifStmt none none }],
        ControlFlowStack := [⟨0, none⟩, ⟨1, none⟩] }
      [⟨0, none⟩] ⟨1, none⟩ [] rfl (by decide) (by decide)
    exact ⟨lv, by rw [h]; rfl⟩
  · have h := flang_C6.2.2.2.2.1
      { arena := [{ kind := .doWhileStmt }], ControlFlowStack := [⟨0, none⟩] }
      (by decide)
    rw [h]
    rfl

/-- Lookups below the old length are unchanged by extending the arena. -/
theorem stmtKindOf_extend {st1 st2 : SemaState} {ext : List StmtNode}
    (h : st2.arena = st1.arena ++ ext) (i : StmtId) (hi : i < st1.arena.length) :
    stmtKindOf st2 i = stmtKindOf st1 i := by
  unfold stmtKindOf getStmt
  rw [h, List.get?_append hi]

theorem isLabeledDoMatch_extend {st1 st2 : SemaState} {ext : List StmtNode}
    (h : st2.arena = st1.arena ++ ext) (e : Entry) (lbl : Nat)
    (he : e.Statement < st1.arena.length) :
    isLabeledDoMatch st2 e lbl = isLabeledDoMatch st1 e lbl := by
  unfold isLabeledDoMatch
  rw [stmtKindOf_extend h e.Statement he]

theorem listAny_congr {α : Type} (l : List α) (p q : α → Bool)
    (h : ∀ a ∈ l, p a = q a) : l.any p = l.any q := by
  induction l with
  | nil => rfl
  | cons a t ih =>
    simp only [List.any_cons, h a (by simp), ih (fun x hx => h x (by simp [hx]))]

/-- IsInLabeledDo is unchanged by extending the arena, provided every stack
entry points below the old length. -/
theorem IsInLabeledDo_extend {st1 st2 : SemaState} {ext : List StmtNode}
    (harena : st2.arena = st1.arena ++ ext)
    (hstack : st2.ControlFlowStack = st1.ControlFlowStack)
    (hwf : ∀ x ∈ st1.ControlFlowStack, x.Statement < st1.arena.length)
    (lbl : Nat) : IsInLabeledDo st2 lbl = IsInLabeledDo st1 lbl := by
  unfold IsInLabeledDo
  rw [hstack]
  exact listAny_congr _ _ _
    (fun e he => isLabeledDoMatch_extend harena e lbl (hwf e he))

/-- Declaring a fresh label that no open DO is waiting for and that no
pending forward reference mentions only records the declaration. -/
theorem declareStatementLabel_fresh (st : SemaState) (l : Nat) (S : StmtId)
    (hres : StmtLabelScope.Resolve st l = none)
    (hnotdo : IsInLabeledDo st l = false)
    (hfwd : ∀ fd ∈ st.ForwardStmtLabelDeclsInScope,
      GetStmtLabelValue fd.StmtLabel ≠ GetStmtLabelValue l) :
    DeclareStatementLabel st l S =
    { st with StmtLabelDeclsInScope :=
        st.StmtLabelDeclsInScope ++ [(GetStmtLabelValue l, S)] } := by
  have hfind : st.StmtLabelDeclsInScope.find? (fun p => p.1 == GetStmtLabelValue l) =
      none := by
    unfold StmtLabelScope.Resolve at hres
    exact Option.map_eq_none.mp hres
  set stD : SemaState := { st with StmtLabelDeclsInScope := st.StmtLabelDeclsInScope ++ [(GetStmtLabelValue l, S)] } with hstD
  have hdecl : StmtLabelScope.Declare st l S = stD := by
    unfold StmtLabelScope.Declare
    simp only [hfind]
  have hcheck : CheckStatementLabelEndDo stD l S = stD := by
    unfold CheckStatementLabelEndDo
    have hIn : IsInLabeledDo stD l = IsInLabeledDo st l := rfl
    rw [hIn, hnotdo]
    cases hHE : BlockStmtBuilder.HasEntered stD <;> simp
  have hmatchempty : stD.ForwardStmtLabelDeclsInScope.filter
      (fun fd => GetStmtLabelValue fd.StmtLabel == GetStmtLabelValue l) = [] := by
    rw [List.filter_eq_nil]
    intro fd hfd
    simp only [beq_iff_eq]
    exact hfwd fd hfd
  have hkeepall : stD.ForwardStmtLabelDeclsInScope.filter
      (fun fd => GetStmtLabelValue fd.StmtLabel != GetStmtLabelValue l) =
      stD.ForwardStmtLabelDeclsInScope := by
    rw [List.filter_eq_self]
    intro fd hfd
    simp only [bne_iff_ne, ne_eq, decide_eq_true_eq]
    exact hfwd fd hfd
  show DeclareStatementLabel st l S = stD
  unfold DeclareStatementLabel
  simp only [hres, hdecl, hcheck, hmatchempty, hkeepall, List.foldl_nil]

/-- C7 counterexample: acting on a logical IF (condition, no THEN) does push
a new entry on the open-construct stack, refuting the claim's "does not enter
a new open-construct stack entry": from the empty state the stack after
ActOnIfStmt is non-empty. -/
theorem flang_C7_counterexample :
    ({} : SemaState).ControlFlowStack = [] ∧
    (ActOnIfStmt ({} : SemaState) true none none).2.ControlFlowStack =
      [{ Statement := 0, ExpectedEndDoLabel := none }] := by
  decide

/-- C7 as amended: processing a logical IF builds an IfStmt, appends it, and
enters a new open-construct stack entry for it; the single trailing action
statement is then parsed and appended carrying no statement label of its own
(the label, if any, stays on the IfStmt), after which an implicit END IF is
synthesized, which appends the END IF construct part and pops the entry
again, so the composite leaves the open-construct stack as it was.  (Stated
for a fresh label: the label is not yet declared, no open DO waits for it,
and no pending forward reference mentions it.) -/
theorem flang_C7 (st : SemaState) (lbl : Option Nat) (act : ActionStmtKind)
    (hwfstack : ∀ x ∈ st.ControlFlowStack, x.Statement < st.arena.length)
    (hlbl : ∀ l, lbl = some l → StmtLabelScope.Resolve st l = none ∧
      IsInLabeledDo st l = false ∧
      ∀ fd ∈ st.ForwardStmtLabelDeclsInScope,
        GetStmtLabelValue fd.StmtLabel ≠ GetStmtLabelValue l) :
    (ActOnIfStmt st true none lbl).2.ControlFlowStack =
      { Statement := st.arena.length, ExpectedEndDoLabel := none } :: st.ControlFlowStack ∧
    (ParseLogicalIfStmt st true lbl act).2.ControlFlowStack = st.ControlFlowStack ∧
    (ParseLogicalIfStmt st true lbl act).2.body =
      st.body ++ [st.arena.length, st.arena.length + 1, st.arena.length + 2] ∧
    (getStmt (ParseLogicalIfStmt st true lbl act).2 st.arena.length).map
      (fun n => (n.kind, n.stmtLabel)) = some (.ifStmt none none, lbl) ∧
    (getStmt (ParseLogicalIfStmt st true lbl act).2 (st.arena.length + 1)).map
      (fun n => n.stmtLabel) = some none ∧
    (getStmt (ParseLogicalIfStmt st true lbl act).2 (st.arena.length + 2)).map
      (fun n => n.kind) = some (.constructPart .endIfStmtClass) ∧
    (ParseLogicalIfStmt st true lbl act).1 = some st.arena.length := by
  have hkey : ∀ labelsAfter : List (Nat × StmtId),
      declareLabelIfPresent { st with arena := st.arena ++ [{ kind := .ifStmt none none, stmtLabel := lbl }], body := st.body ++ [st.arena.length] } lbl st.arena.length = { st with arena := st.arena ++ [{ kind := .ifStmt none none, stmtLabel := lbl }], body := st.body ++ [st.arena.length], StmtLabelDeclsInScope := labelsAfter } →
      ((ActOnIfStmt st true none lbl).2.ControlFlowStack =
        { Statement := st.arena.length, ExpectedEndDoLabel := none } :: st.ControlFlowStack ∧
      (ParseLogicalIfStmt st true lbl act).2.ControlFlowStack = st.ControlFlowStack ∧
      (ParseLogicalIfStmt st true lbl act).2.body =
        st.body ++ [st.arena.length, st.arena.length + 1, st.arena.length + 2] ∧
      (getStmt (ParseLogicalIfStmt st true lbl act).2 st.arena.length).map
        (fun n => (n.kind, n.stmtLabel)) = some (.ifStmt none none, lbl) ∧
      (getStmt (ParseLogicalIfStmt st true lbl act).2 (st.arena.length + 1)).map
        (fun n => n.stmtLabel) = some none ∧
      (getStmt (ParseLogicalIfStmt st true lbl act).2 (st.arena.length + 2)).map
        (fun n => n.kind) = some (.constructPart .endIfStmtClass) ∧
      (ParseLogicalIfStmt st true lbl act).1 = some st.arena.length) := by
    intro labelsAfter hdecl
    have hA : ActOnIfStmt st true none lbl = (some st.arena.length, { st with arena := st.arena ++ [{ kind := .ifStmt none none, stmtLabel := lbl }], body := st.body ++ [st.arena.length], StmtLabelDeclsInScope := labelsAfter, ControlFlowStack := { Statement := st.arena.length, ExpectedEndDoLabel := none } :: st.ControlFlowStack }) := by
      unfold ActOnIfStmt newStmt
      simp only [if_true, BlockStmtBuilder.Append, BlockStmtBuilder.Enter]
      rw [hdecl]
    set ifNode : StmtNode := { kind := .ifStmt none none, stmtLabel := lbl } with hifNode
    set stA : SemaState := { st with arena := st.arena ++ [ifNode], body := st.body ++ [st.arena.length], StmtLabelDeclsInScope := labelsAfter, ControlFlowStack := { Statement := st.arena.length, ExpectedEndDoLabel := none } :: st.ControlFlowStack } with hstA
    set actKind : StmtKind := (match act with
      | ActionStmtKind.continueAction => StmtKind.continueStmt
      | ActionStmtKind.stopAction => StmtKind.stopStmt) with hactKind
    set actNode : StmtNode := { kind := actKind, stmtLabel := none } with hactNode
    set stB : SemaState := { st with arena := (st.arena ++ [ifNode]) ++ [actNode], body := (st.body ++ [st.arena.length]) ++ [st.arena.length + 1], StmtLabelDeclsInScope := labelsAfter, ControlFlowStack := { Statement := st.arena.length, ExpectedEndDoLabel := none } :: st.ControlFlowStack } with hstB
    have harenaA : stA.arena.length = st.arena.length + 1 := by
      rw [hstA]
      simp
    have hB : runActionStmt stA act none = (some (st.arena.length + 1), stB) := by
      cases act with
      | continueAction =>
        unfold runActionStmt ActOnContinueStmt newStmt
        simp only [BlockStmtBuilder.Append, declareLabelIfPresent]
        rw [harenaA]
      | stopAction =>
        unfold runActionStmt ActOnStopStmt newStmt
        simp only [BlockStmtBuilder.Append, declareLabelIfPresent]
        rw [harenaA]
    have hIsIf : isIfEntry stB { Statement := st.arena.length, ExpectedEndDoLabel := none } = true := by
      unfold isIfEntry stmtKindOf getStmt
      rw [hstB]
      show (match (((st.arena ++ [ifNode]) ++ [actNode]).get? st.arena.length).map (fun n => n.kind) with
        | some (.ifStmt _ _) => true
        | _ => false) = true
      rw [List.get?_append (by simp), List.get?_concat_length]
      rw [hifNode]
      rfl
    have hlenB : stB.ControlFlowStack.length = st.ControlFlowStack.length + 1 := by
      rw [hstB]
      rfl
    have hunwB : LeaveBlocksUntilIf stB = (some st.arena.length, stB) := by
      unfold LeaveBlocksUntilIf
      rw [hlenB]
      simp only [LeaveBlocksUntilGo]
      rw [show stB.ControlFlowStack.head? = some { Statement := st.arena.length, ExpectedEndDoLabel := none } from rfl]
      simp only [hIsIf, if_true]
    have harenaB : stB.arena.length = st.arena.length + 2 := by
      rw [hstB]
      simp
    set endNode : StmtNode := { kind := .constructPart .endIfStmtClass, stmtLabel := none } with hendNode
    set stC : SemaState := { st with arena := ((st.arena ++ [ifNode]) ++ [actNode]) ++ [endNode], body := ((st.body ++ [st.arena.length]) ++ [st.arena.length + 1]) ++ [st.arena.length + 2], StmtLabelDeclsInScope := labelsAfter, ControlFlowStack := st.ControlFlowStack } with hstC
    have hname : CheckConstructNameMatch { st with arena := ((st.arena ++ [ifNode]) ++ [actNode]) ++ [endNode], body := ((st.body ++ [st.arena.length]) ++ [st.arena.length + 1]) ++ [st.arena.length + 2], StmtLabelDeclsInScope := labelsAfter, ControlFlowStack := st.ControlFlowStack } none st.arena.length = stC := by
      unfold CheckConstructNameMatch getStmt
      rw [show ((((st.arena ++ [ifNode]) ++ [actNode]) ++ [endNode]).get? st.arena.length) = some ifNode by rw [List.get?_append (by simp), List.get?_append (by simp), List.get?_concat_length]]
      rw [hifNode]
      rfl
    have hC : ActOnEndIfStmt stB none none = (some (st.arena.length + 2), stC) := by
      unfold ActOnEndIfStmt newStmt
      rw [hunwB]
      simp only [Option.isNone_some, Bool.false_eq_true, if_false, BlockStmtBuilder.Append, declareLabelIfPresent]
      rw [harenaB]
      have hLLB : LeaveLastBlock { stB with arena := stB.arena ++ [endNode], body := stB.body ++ [st.arena.length + 2] } = { st with arena := ((st.arena ++ [ifNode]) ++ [actNode]) ++ [endNode], body := ((st.body ++ [st.arena.length]) ++ [st.arena.length + 1]) ++ [st.arena.length + 2], StmtLabelDeclsInScope := labelsAfter, ControlFlowStack := st.ControlFlowStack } := by
        rw [LeaveLastBlock_spec _ { Statement := st.arena.length, ExpectedEndDoLabel := none } st.ControlFlowStack rfl]
        unfold eraseEntryLoopVar
        rw [show stmtKindOf { stB with arena := stB.arena ++ [endNode], body := stB.body ++ [st.arena.length + 2] } st.arena.length = some (StmtKind.ifStmt none none) by unfold stmtKindOf getStmt; rw [show ({ stB with arena := stB.arena ++ [endNode], body := stB.body ++ [st.arena.length + 2] } : SemaState).arena = (((st.arena ++ [ifNode]) ++ [actNode]) ++ [endNode]) from rfl]; rw [List.get?_append (by simp), List.get?_append (by simp), List.get?_concat_length]; rw [hifNode]; rfl]
      rw [hLLB, hname]
    have hwhole : ParseLogicalIfStmt st true lbl act = (some st.arena.length, stC) := by
      unfold ParseLogicalIfStmt
      rw [hA]
      show (let x := runActionStmt stA act none
        let y := ActOnEndIfStmt x.2 none none
        (if x.1.isNone then none else some st.arena.length, y.2) : Option StmtId × SemaState) = _
      rw [hB]
      show (let y := ActOnEndIfStmt stB none none
        (if (some (st.arena.length + 1)).isNone then none else some st.arena.length, y.2) : Option StmtId × SemaState) = _
      rw [hC]
      rfl
    refine ⟨?_, ?_, ?_, ?_, ?_, ?_, ?_⟩
    · rw [hA]
    · rw [hwhole]
    · rw [hwhole]
      rw [hstC]
      simp
    · rw [hwhole]
      show ((((st.arena ++ [ifNode]) ++ [actNode]) ++ [endNode]).get? st.arena.length).map (fun n => (n.kind, n.stmtLabel)) = _
      rw [List.get?_append (by simp), List.get?_append (by simp), List.get?_concat_length]
      rw [hifNode]
      rfl
    · rw [hwhole]
      show ((((st.arena ++ [ifNode]) ++ [actNode]) ++ [endNode]).get? (st.arena.length + 1)).map (fun n => n.stmtLabel) = _
      rw [List.get?_append (by simp)]
      rw [show st.arena.length + 1 = (st.arena ++ [ifNode]).length by simp]
      rw [List.get?_concat_length]
      rw [hactNode]
      rfl
    · rw [hwhole]
      show ((((st.arena ++ [ifNode]) ++ [actNode]) ++ [endNode]).get? (st.arena.length + 2)).map (fun n => n.kind) = _
      rw [show st.arena.length + 2 = ((st.arena ++ [ifNode]) ++ [actNode]).length by simp]
      rw [List.get?_concat_length]
      rw [hendNode]
      rfl
    · rw [hwhole]
  cases hlblcase : lbl with
  | none =>
    subst hlblcase
    exact hkey st.StmtLabelDeclsInScope rfl
  | some l =>
    subst hlblcase
    obtain ⟨hres, hnotdo, hfwd⟩ := hlbl l rfl
    refine hkey (st.StmtLabelDeclsInScope ++ [(GetStmtLabelValue l, st.arena.length)]) ?_
    show DeclareStatementLabel { st with arena := st.arena ++ [{ kind := .ifStmt none none, stmtLabel := some l }], body := st.body ++ [st.arena.length] } l st.arena.length = _
    have hres2 : StmtLabelScope.Resolve { st with arena := st.arena ++ [{ kind := .ifStmt none none, stmtLabel := some l }], body := st.body ++ [st.arena.length] } l = none := hres
    have hfwd2 : ∀ fd ∈ ({ st with arena := st.arena ++ [{ kind := .ifStmt none none, stmtLabel := some l }], body := st.body ++ [st.arena.length] } : SemaState).ForwardStmtLabelDeclsInScope, GetStmtLabelValue fd.StmtLabel ≠ GetStmtLabelValue l := hfwd
    have hnotdo2 : IsInLabeledDo { st with arena := st.arena ++ [{ kind := .ifStmt none none, stmtLabel := some l }], body := st.body ++ [st.arena.length] } l = false := by
      rw [@IsInLabeledDo_extend st { st with arena := st.arena ++ [{ kind := .ifStmt none none, stmtLabel := some l }], body := st.body ++ [st.arena.length] } [{ kind := .ifStmt none none, stmtLabel := some l }] rfl rfl hwfstack l]
      exact hnotdo
    rw [declareStatementLabel_fresh _ l st.arena.length hres2 hnotdo2 hfwd2]

/-- C7 witness: the logical IF carrying label 10 guarding a CONTINUE, from
the empty state: the stack ends empty, the body holds the IfStmt, the action
and the implicit END IF, the label stays on the IfStmt and the action carries
none. -/
theorem flang_C7_witness :
    (ParseLogicalIfStmt {} true (some 10) ActionStmtKind.continueAction).2.ControlFlowStack = [] ∧
    (ParseLogicalIfStmt {} true (some 10) ActionStmtKind.continueAction).2.body = [0, 1, 2] ∧
    (getStmt (ParseLogicalIfStmt {} true (some 10) ActionStmtKind.continueAction).2 0).map
      (fun n => (n.kind, n.stmtLabel)) = some (.ifStmt none none, some 10) ∧
    (getStmt (ParseLogicalIfStmt {} true (some 10) ActionStmtKind.continueAction).2 1).map
      (fun n => n.stmtLabel) = some none := by
  have h := flang_C7 {} (some 10) ActionStmtKind.continueAction
    (by intro x hx; cases hx)
    (by
      intro l hl
      cases hl
      refine ⟨by decide, by decide, ?_⟩
      intro fd hfd
      cases hfd)
  refine ⟨h.2.1, ?_, h.2.2.2.1, h.2.2.2.2.1⟩
  rw [h.2.2.1]
  rfl

/-- C8 counterexample: in src the CALL parser resolves the callee itself and
rejects any name that does not resolve to a FunctionDecl before the semantic
action can run, so a CALL with an unresolved callee name produces a parse
error and no implicit external declaration, refuting the claim's "the name is
implicitly declared as an external procedure on first use" for the statement
as parsed. -/
theorem flang_C8_counterexample :
    ParseCallStmt {} 7 none = (none, addDiag {} Diag.expectedFuncAfterCall) ∧
    (ParseCallStmt {} 7 none).2.decls = [] ∧
    (ParseCallStmt {} 7 none).2.body = [] ∧
    ResolveIdentifier (ParseCallStmt {} 7 none).2 7 = none := by
  refine ⟨?_, ?_, ?_, ?_⟩ <;> decide

/-- C8 as amended: the semantic action Sema::ActOnCallStmt behaves as the
claim says - an unresolved callee name is implicitly declared as an external
procedure and a CallStmt referencing it is built and appended, while a name
resolving to a variable, an intrinsic, or a normal or statement function is
reported with call-requires-subroutine and nothing is appended - but the
parser in src rejects a callee that does not resolve to a FunctionDecl with
expected-function-after-CALL before invoking the action, so the implicit
declaration path is not reached from ParseCallStmt. -/
theorem flang_C8 :
    (∀ (st : SemaState) (id : IdentId),
      ResolveIdentifier st id = none →
      ResolveIdentifier (ActOnCallStmt st id none).2 id =
        some (DeclInfo.functionDecl FunctionKind.externalProc) ∧
      (ActOnCallStmt st id none).2.body = st.body ++ [st.arena.length] ∧
      stmtKindOf (ActOnCallStmt st id none).2 st.arena.length =
        some (StmtKind.callStmt id) ∧
      (ActOnCallStmt st id none).1 = some st.arena.length) ∧
    (∀ (st : SemaState) (id : IdentId) (lbl : Option Nat),
      ResolveIdentifier st id = some DeclInfo.varDecl →
      ActOnCallStmt st id lbl = (none, addDiag st (Diag.callRequiresSubroutine 0))) ∧
    (∀ (st : SemaState) (id : IdentId) (lbl : Option Nat),
      ResolveIdentifier st id = some DeclInfo.intrinsicFunctionDecl →
      ActOnCallStmt st id lbl = (none, addDiag st (Diag.callRequiresSubroutine 1))) ∧
    (∀ (st : SemaState) (id : IdentId) (lbl : Option Nat) (fk : FunctionKind),
      ResolveIdentifier st id = some (DeclInfo.functionDecl fk) →
      (fk = FunctionKind.normalFunction ∨ fk = FunctionKind.statementFunction) →
      ActOnCallStmt st id lbl = (none, addDiag st (Diag.callRequiresSubroutine 2))) ∧
    (∀ (st : SemaState) (id : IdentId) (lbl : Option Nat),
      ResolveIdentifier st id = none →
      ParseCallStmt st id lbl = (none, addDiag st Diag.expectedFuncAfterCall)) := by
  refine ⟨?_, ?_, ?_, ?_, ?_⟩
  · intro st id h
    have hfind : st.decls.find? (fun p => p.1 == id) = none := by
      unfold ResolveIdentifier at h
      exact Option.map_eq_none.mp h
    have hact : ActOnCallStmt st id none = (some st.arena.length, { st with decls := st.decls ++ [(id, DeclInfo.functionDecl FunctionKind.externalProc)], arena := st.arena ++ [{ kind := StmtKind.callStmt id, stmtLabel := none }], body := st.body ++ [st.arena.length] }) := by
      unfold ActOnCallStmt newStmt
      simp only [h, BlockStmtBuilder.Append, declareLabelIfPresent]
    refine ⟨?_, ?_, ?_, ?_⟩ <;> rw [hact]
    · unfold ResolveIdentifier
      show ((st.decls ++ [(id, DeclInfo.functionDecl FunctionKind.externalProc)]).find?
        (fun p => p.1 == id)).map (fun p => p.2) = _
      rw [List.find?_append, hfind]
      simp
    · show ((st.arena ++ [({ kind := StmtKind.callStmt id, stmtLabel := none } : StmtNode)]).get?
        st.arena.length).map (fun n => n.kind) = _
      rw [List.get?_concat_length]
      rfl
  · intro st id lbl h
    unfold ActOnCallStmt
    simp only [h]
  · intro st id lbl h
    unfold ActOnCallStmt
    simp only [h]
  · intro st id lbl fk h hor
    unfold ActOnCallStmt
    simp only [h]
    rcases hor with h2 | h2 <;> subst h2 <;> rfl
  · intro st id lbl h
    unfold ParseCallStmt
    simp only [h]

/-- C8 witness: an environment with a variable X (id 3) and nothing else: the
action on the unresolved name 7 implicitly declares it external and appends
the CallStmt; the action on the variable 3 errors with nothing appended; the
parser rejects the unresolved name 7. -/
theorem flang_C8_witness :
    ResolveIdentifier { decls := [(3, DeclInfo.varDecl)] } 7 = none ∧
    ResolveIdentifier (ActOnCallStmt { decls := [(3, DeclInfo.varDecl)] } 7 none).2 7 =
      some (DeclInfo.functionDecl FunctionKind.externalProc) ∧
    ActOnCallStmt { decls := [(3, DeclInfo.varDecl)] } 3 none =
      (none, addDiag { decls := [(3, DeclInfo.varDecl)] } (Diag.callRequiresSubroutine 0)) ∧
    ParseCallStmt { decls := [(3, DeclInfo.varDecl)] } 7 none =
      (none, addDiag { decls := [(3, DeclInfo.varDecl)] } Diag.expectedFuncAfterCall) := by
  refine ⟨by decide, ?_, ?_, ?_⟩
  · exact (flang_C8.1 { decls := [(3, DeclInfo.varDecl)] } 7 (by decide)).1
  · exact flang_C8.2.1 { decls := [(3, DeclInfo.varDecl)] } 3 none (by decide)
  · exact flang_C8.2.2.2.2 { decls := [(3, DeclInfo.varDecl)] } 7 none (by decide)

/-- Marking a statement used-as-goto-target changes only that node's flag. -/
theorem getStmt_mark_self (st : SemaState) (i : StmtId) (nd : StmtNode)
    (h : getStmt st i = some nd) :
    getStmt (setStmtLabelUsedAsGotoTarget st i) i =
      some { nd with usedAsGotoTarget := true } := by
  unfold setStmtLabelUsedAsGotoTarget modifyStmt setStmt getStmt
  simp only [getStmt] at h
  simp only [h]
  show (st.arena.set i { nd with usedAsGotoTarget := true }).get? i = _
  have hlt : i < st.arena.length := (List.get?_eq_some.mp h).1
  exact List.get?_set_eq_of_lt _ hlt

theorem getStmt_mark_other (st : SemaState) (i j : StmtId) (hne : j ≠ i) :
    getStmt (setStmtLabelUsedAsGotoTarget st i) j = getStmt st j := by
  unfold setStmtLabelUsedAsGotoTarget modifyStmt setStmt getStmt
  cases h : st.arena.get? i with
  | none => rfl
  | some n =>
    show (st.arena.set i _).get? j = _
    exact List.get?_set_ne _ _ (fun hij => hne hij.symm)

theorem mark_arena_length (st : SemaState) (i : StmtId) :
    (setStmtLabelUsedAsGotoTarget st i).arena.length = st.arena.length := by
  unfold setStmtLabelUsedAsGotoTarget modifyStmt setStmt
  cases h : st.arena.get? i with
  | none => rfl
  | some n => simp

theorem mark_fields (st : SemaState) (i : StmtId) :
    (setStmtLabelUsedAsGotoTarget st i).body = st.body ∧
    (setStmtLabelUsedAsGotoTarget st i).ControlFlowStack = st.ControlFlowStack ∧
    (setStmtLabelUsedAsGotoTarget st i).StmtLabelDeclsInScope = st.StmtLabelDeclsInScope ∧
    (setStmtLabelUsedAsGotoTarget st i).ForwardStmtLabelDeclsInScope =
      st.ForwardStmtLabelDeclsInScope ∧
    (setStmtLabelUsedAsGotoTarget st i).loopVars = st.loopVars ∧
    (setStmtLabelUsedAsGotoTarget st i).decls = st.decls ∧
    (setStmtLabelUsedAsGotoTarget st i).Fortran77 = st.Fortran77 ∧
    (setStmtLabelUsedAsGotoTarget st i).diags = st.diags := by
  unfold setStmtLabelUsedAsGotoTarget modifyStmt setStmt
  cases h : st.arena.get? i with
  | none => exact ⟨rfl, rfl, rfl, rfl, rfl, rfl, rfl, rfl⟩
  | some n => exact ⟨rfl, rfl, rfl, rfl, rfl, rfl, rfl, rfl⟩

theorem mark_flag_preserved (st : SemaState) (i D : StmtId)
    (h : (getStmt st D).map (fun n => n.usedAsGotoTarget) = some true) :
    (getStmt (setStmtLabelUsedAsGotoTarget st i) D).map (fun n => n.usedAsGotoTarget) =
      some true := by
  by_cases hD : D = i
  · subst hD
    cases hnd : getStmt st D with
    | none => rw [hnd] at h; cases h
    | some nd =>
      rw [getStmt_mark_self st D nd hnd]
      rfl
  · rw [getStmt_mark_other st i D hD]
    exact h

theorem markResolvedTargets_spec (st : SemaState) (Targets : List Nat) :
    ∀ acc : SemaState,
      acc.arena.length = st.arena.length →
      ((markResolvedTargets st Targets acc).body = acc.body ∧
      (markResolvedTargets st Targets acc).ControlFlowStack = acc.ControlFlowStack ∧
      (markResolvedTargets st Targets acc).StmtLabelDeclsInScope = acc.StmtLabelDeclsInScope ∧
      (markResolvedTargets st Targets acc).ForwardStmtLabelDeclsInScope =
        acc.ForwardStmtLabelDeclsInScope ∧
      (markResolvedTargets st Targets acc).decls = acc.decls ∧
      (markResolvedTargets st Targets acc).diags = acc.diags ∧
      (markResolvedTargets st Targets acc).arena.length = st.arena.length ∧
      (∀ D, (getStmt acc D).map (fun n => n.usedAsGotoTarget) = some true →
        (getStmt (markResolvedTargets st Targets acc) D).map
          (fun n => n.usedAsGotoTarget) = some true) ∧
      (∀ t ∈ Targets, ∀ D, StmtLabelScope.Resolve st t = some D →
        D < st.arena.length →
        (getStmt (markResolvedTargets st Targets acc) D).map
          (fun n => n.usedAsGotoTarget) = some true)) := by
  induction Targets with
  | nil =>
    intro acc hlen
    refine ⟨rfl, rfl, rfl, rfl, rfl, rfl, hlen, fun D h => h, ?_⟩
    intro t ht
    cases ht
  | cons t0 rest ih =>
    intro acc hlen
    unfold markResolvedTargets
    simp only [List.foldl_cons]
    cases hres : StmtLabelScope.Resolve st t0 with
    | none =>
      obtain ⟨h1, h2, h3, h4, h5, h6, h7, h8, h9⟩ := ih acc hlen
      refine ⟨h1, h2, h3, h4, h5, h6, h7, h8, ?_⟩
      intro t ht D hD hDlt
      rcases List.mem_cons.mp ht with heq | hmem
      · subst heq
        rw [hres] at hD
        cases hD
      · exact h9 t hmem D hD hDlt
    | some D0 =>
      have hlen2 : (setStmtLabelUsedAsGotoTarget acc D0).arena.length = st.arena.length := by
        rw [mark_arena_length]
        exact hlen
      obtain ⟨h1, h2, h3, h4, h5, h6, h7, h8, h9⟩ := ih (setStmtLabelUsedAsGotoTarget acc D0) hlen2
      obtain ⟨m1, m2, m3, m4, m5, m6, m7, m8⟩ := mark_fields acc D0
      refine ⟨h1.trans m1, h2.trans m2, h3.trans m3, h4.trans m4, h5.trans m6, h6.trans m8, h7, ?_, ?_⟩
      · intro D h
        exact h8 D (mark_flag_preserved acc D0 D h)
      · intro t ht D hD hDlt
        rcases List.mem_cons.mp ht with heq | hmem
        · subst heq
          rw [hres] at hD
          cases hD
          have hDacc : D0 < acc.arena.length := by rw [hlen]; exact hDlt
          obtain ⟨nd, hnd⟩ : ∃ nd, getStmt acc D0 = some nd := by
            unfold getStmt
            cases hg : acc.arena.get? D0 with
            | none => exact absurd hDacc (not_lt.mpr (List.get?_eq_none.mp hg))
            | some n => exact ⟨n, rfl⟩
          apply h8
          rw [getStmt_mark_self acc D0 nd hnd]
          rfl
        · exact h9 t hmem D hD hDlt

/-- The forward-reference registration loop shared by ActOnAssignedGotoStmt
and ActOnComputedGotoStmt: each enumerated value unresolved against the
pre-state appends a pending request carrying its slot index. -/
theorem declareForwardRefs_fold (st : SemaState) (Result : StmtId)
    (l : List (Nat × Nat)) :
    ∀ st0 : SemaState,
      l.foldl
        (fun s p =>
          if (StmtLabelScope.Resolve st p.2).isNone then
            StmtLabelScope.DeclareForwardReference s
              { StmtLabel := p.2, Statement := Result, ResolveCallbackData := p.1 }
          else s) st0 =
      { st0 with ForwardStmtLabelDeclsInScope := st0.ForwardStmtLabelDeclsInScope ++ (l.filter (fun p => (StmtLabelScope.Resolve st p.2).isNone)).map (fun p => { StmtLabel := p.2, Statement := Result, ResolveCallbackData := p.1 }) } := by
  induction l with
  | nil =>
    intro st0
    simp
  | cons p0 rest ih =>
    intro st0
    simp only [List.foldl_cons]
    cases hres : (StmtLabelScope.Resolve st p0.2).isNone with
    | false =>
      simp only [hres, Bool.false_eq_true, if_false]
      rw [ih st0]
      have hfil : List.filter (fun p => (StmtLabelScope.Resolve st p.2).isNone) (p0 :: rest) =
          List.filter (fun p => (StmtLabelScope.Resolve st p.2).isNone) rest := by
        simp [List.filter_cons, hres]
      rw [hfil]
    | true =>
      simp only [hres, if_true]
      rw [ih]
      have hfil : List.filter (fun p => (StmtLabelScope.Resolve st p.2).isNone) (p0 :: rest) =
          p0 :: List.filter (fun p => (StmtLabelScope.Resolve st p.2).isNone) rest := by
        simp [List.filter_cons, hres]
      rw [hfil]
      unfold StmtLabelScope.DeclareForwardReference
      simp [List.append_assoc]

/-- The normal form of ActOnComputedGotoStmt in Fortran 77 mode: mark every
resolved target, create the node with the resolved references, register a
slot-indexed forward reference per unresolved target, and append. -/
theorem ActOnComputedGotoStmt_f77 (st : SemaState) (ts : List Nat)
    (hF : st.Fortran77 = true) :
    ActOnComputedGotoStmt st ts none =
      (some st.arena.length, { markResolvedTargets st ts st with arena := (markResolvedTargets st ts st).arena ++ [{ kind := .computedGotoStmt (ts.map (fun v => StmtLabelScope.Resolve st v)), stmtLabel := none }], ForwardStmtLabelDeclsInScope := (markResolvedTargets st ts st).ForwardStmtLabelDeclsInScope ++ (ts.enum.filter (fun p => (StmtLabelScope.Resolve st p.2).isNone)).map (fun p => { StmtLabel := p.2, Statement := st.arena.length, ResolveCallbackData := p.1 }), body := (markResolvedTargets st ts st).body ++ [st.arena.length] }) := by
  obtain ⟨h1, h2, h3, h4, h5, h6, h7, h8, h9⟩ := markResolvedTargets_spec st ts st rfl
  unfold ActOnComputedGotoStmt newStmt
  simp only [hF, Bool.not_true, Bool.false_eq_true, if_false]
  rw [h7]
  rw [declareForwardRefs_fold st st.arena.length ts.enum]
  rfl

/-- C3 counterexample: a declared label referenced from an assigned GOTO is
resolved immediately (the allowed-label slot holds the declaring statement)
but, unlike the claim says, the declaring statement is NOT marked
used-as-goto-target. -/
theorem flang_C3_counterexample :
    StmtLabelScope.Resolve { arena := [{ kind := .continueStmt, stmtLabel := some 10 }], StmtLabelDeclsInScope := [(10, 0)] } 10 = some 0 ∧
    stmtKindOf (ActOnAssignedGotoStmt { arena := [{ kind := .continueStmt, stmtLabel := some 10 }], StmtLabelDeclsInScope := [(10, 0)] } 0 [10] none).2 1 =
      some (.assignedGotoStmt 0 [some 0]) ∧
    (getStmt (ActOnAssignedGotoStmt { arena := [{ kind := .continueStmt, stmtLabel := some 10 }], StmtLabelDeclsInScope := [(10, 0)] } 0 [10] none).2 0).map
      (fun n => n.usedAsGotoTarget) = some false := by
  decide

/-- C3 as amended: for GOTO and computed GOTO, every referenced label already
declared in the label scope is resolved immediately to the declaring
statement and that statement is marked used-as-goto-target, every label not
yet declared registers a forward-reference patch request recording the owning
statement (with the slot index for computed GOTO), and the constructed
statement is appended to the current body; the assigned-GOTO action resolves
its allowed labels and registers slot-indexed forward references for the
unresolved ones the same way, but does NOT mark the resolved declaring
statements. -/
theorem flang_C3 :
    (∀ st d D nd, StmtLabelScope.Resolve st d = some D → getStmt st D = some nd →
      ActOnGotoStmt st d none = (some st.arena.length, { st with arena := (st.arena ++ [({ kind := .gotoStmt (some D), stmtLabel := none } : StmtNode)]).set D { nd with usedAsGotoTarget := true }, body := st.body ++ [st.arena.length] })) ∧
    (∀ st d, StmtLabelScope.Resolve st d = none →
      ActOnGotoStmt st d none = (some st.arena.length, { st with arena := st.arena ++ [{ kind := .gotoStmt none, stmtLabel := none }], ForwardStmtLabelDeclsInScope := st.ForwardStmtLabelDeclsInScope ++ [{ StmtLabel := d, Statement := st.arena.length }], body := st.body ++ [st.arena.length] })) ∧
    (∀ st v values,
      ActOnAssignedGotoStmt st v values none = (some st.arena.length, { st with arena := st.arena ++ [{ kind := .assignedGotoStmt v (values.map (fun l => StmtLabelScope.Resolve st l)), stmtLabel := none }], ForwardStmtLabelDeclsInScope := st.ForwardStmtLabelDeclsInScope ++ (values.enum.filter (fun p => (StmtLabelScope.Resolve st p.2).isNone)).map (fun p => { StmtLabel := p.2, Statement := st.arena.length, ResolveCallbackData := p.1 }), body := st.body ++ [st.arena.length] })) ∧
    (∀ st ts, st.Fortran77 = true →
      ActOnComputedGotoStmt st ts none = (some st.arena.length, { markResolvedTargets st ts st with arena := (markResolvedTargets st ts st).arena ++ [{ kind := .computedGotoStmt (ts.map (fun l => StmtLabelScope.Resolve st l)), stmtLabel := none }], ForwardStmtLabelDeclsInScope := st.ForwardStmtLabelDeclsInScope ++ (ts.enum.filter (fun p => (StmtLabelScope.Resolve st p.2).isNone)).map (fun p => { StmtLabel := p.2, Statement := st.arena.length, ResolveCallbackData := p.1 }), body := st.body ++ [st.arena.length] })) ∧
    (∀ st ts, st.Fortran77 = true → ∀ t ∈ ts, ∀ D, StmtLabelScope.Resolve st t = some D →
      D < st.arena.length →
      (getStmt (ActOnComputedGotoStmt st ts none).2 D).map (fun n => n.usedAsGotoTarget) =
        some true) := by
  refine ⟨?_, ?_, ?_, ?_, ?_⟩
  · intro st d D nd hres hnd
    have hlt : D < st.arena.length := by
      unfold getStmt at hnd
      exact (List.get?_eq_some.mp hnd).1
    have hget : (st.arena ++ [({ kind := .gotoStmt (some D), stmtLabel := none } : StmtNode)]).get? D = some nd := by
      rw [List.get?_append hlt]
      exact hnd
    unfold ActOnGotoStmt
    rw [hres]
    unfold newStmt setStmtLabelUsedAsGotoTarget modifyStmt setStmt
    simp only []
    rw [hget]
    rfl
  · intro st d hres
    unfold ActOnGotoStmt
    rw [hres]
    rfl
  · intro st v values
    unfold ActOnAssignedGotoStmt newStmt
    simp only []
    rw [declareForwardRefs_fold st st.arena.length values.enum]
    rfl
  · intro st ts hF
    obtain ⟨h1, h2, h3, h4, h5, h6, h7, h8, h9⟩ := markResolvedTargets_spec st ts st rfl
    rw [ActOnComputedGotoStmt_f77 st ts hF, h1, h4]
  · intro st ts hF t ht D hres hDlt
    obtain ⟨h1, h2, h3, h4, h5, h6, h7, h8, h9⟩ := markResolvedTargets_spec st ts st rfl
    have hDM : D < (markResolvedTargets st ts st).arena.length := by
      rw [h7]
      exact hDlt
    have hg : getStmt (ActOnComputedGotoStmt st ts none).2 D =
        getStmt (markResolvedTargets st ts st) D := by
      rw [ActOnComputedGotoStmt_f77 st ts hF]
      show ((markResolvedTargets st ts st).arena ++ [({ kind := .computedGotoStmt (ts.map (fun v => StmtLabelScope.Resolve st v)), stmtLabel := none } : StmtNode)]).get? D = _
      exact List.get?_append hDM
    rw [hg]
    exact h9 t ht D hres hDlt

/-- C3 witness: a scope declaring label 5 at statement 0.  A GOTO to 5
resolves and marks statement 0; a GOTO to 7 registers a forward reference; an
assigned GOTO over [5, 7] resolves slot 0 and registers a forward reference
for slot 1; a computed GOTO over [5, 7] does the same and marks statement 0. -/
theorem flang_C3_witness :
    StmtLabelScope.Resolve { arena := [{ kind := .continueStmt, stmtLabel := some 5 }], StmtLabelDeclsInScope := [(5, 0)] } 5 = some 0 ∧
    ActOnGotoStmt { arena := [{ kind := .continueStmt, stmtLabel := some 5 }], StmtLabelDeclsInScope := [(5, 0)] } 5 none =
      (some 1, { arena := [{ kind := .continueStmt, stmtLabel := some 5, usedAsGotoTarget := true }, { kind := .gotoStmt (some 0) }], StmtLabelDeclsInScope := [(5, 0)], body := [1] }) ∧
    ActOnGotoStmt { arena := [{ kind := .continueStmt, stmtLabel := some 5 }], StmtLabelDeclsInScope := [(5, 0)] } 7 none =
      (some 1, { arena := [{ kind := .continueStmt, stmtLabel := some 5 }, { kind := .gotoStmt none }], StmtLabelDeclsInScope := [(5, 0)], ForwardStmtLabelDeclsInScope := [{ StmtLabel := 7, Statement := 1 }], body := [1] }) ∧
    ActOnAssignedGotoStmt { arena := [{ kind := .continueStmt, stmtLabel := some 5 }], StmtLabelDeclsInScope := [(5, 0)] } 0 [5, 7] none =
      (some 1, { arena := [{ kind := .continueStmt, stmtLabel := some 5 }, { kind := .assignedGotoStmt 0 [some 0, none] }], StmtLabelDeclsInScope := [(5, 0)], ForwardStmtLabelDeclsInScope := [{ StmtLabel := 7, Statement := 1, ResolveCallbackData := 1 }], body := [1] }) ∧
    ActOnComputedGotoStmt { arena := [{ kind := .continueStmt, stmtLabel := some 5 }], StmtLabelDeclsInScope := [(5, 0)] } [5, 7] none =
      (some 1, { arena := [{ kind := .continueStmt, stmtLabel := some 5, usedAsGotoTarget := true }, { kind := .computedGotoStmt [some 0, none] }], StmtLabelDeclsInScope := [(5, 0)], ForwardStmtLabelDeclsInScope := [{ StmtLabel := 7, Statement := 1, ResolveCallbackData := 1 }], body := [1] }) ∧
    (getStmt (ActOnComputedGotoStmt { arena := [{ kind := .continueStmt, stmtLabel := some 5 }], StmtLabelDeclsInScope := [(5, 0)] } [5, 7] none).2 0).map
      (fun n => n.usedAsGotoTarget) = some true := by
  refine ⟨by decide, ?_, ?_, ?_, ?_, ?_⟩
  · have h := flang_C3.1 { arena := [{ kind := .continueStmt, stmtLabel := some 5 }], StmtLabelDeclsInScope := [(5, 0)] } 5 0 { kind := .continueStmt, stmtLabel := some 5 } (by decide) (by decide)
    rw [h]
    decide
  · have h := flang_C3.2.1 { arena := [{ kind := .continueStmt, stmtLabel := some 5 }], StmtLabelDeclsInScope := [(5, 0)] } 7 (by decide)
    rw [h]
    decide
  · have h := flang_C3.2.2.1 { arena := [{ kind := .continueStmt, stmtLabel := some 5 }], StmtLabelDeclsInScope := [(5, 0)] } 0 [5, 7]
    rw [h]
    decide
  · have h := flang_C3.2.2.2.1 { arena := [{ kind := .continueStmt, stmtLabel := some 5 }], StmtLabelDeclsInScope := [(5, 0)] } [5, 7] (by decide)
    rw [h]
    decide
  · exact flang_C3.2.2.2.2 { arena := [{ kind := .continueStmt, stmtLabel := some 5 }], StmtLabelDeclsInScope := [(5, 0)] } [5, 7] (by decide) 5 (by decide) 0 (by decide) (by decide)

/-- C5 counterexample: an IfStmt with no then-statement attached (a block IF,
or a just-built logical IF) is judged an invalid DO terminator by the code,
but it is not in the claim's inadmissible set, so the claim's "exactly the
following kinds" enumeration is refuted at this input. -/
theorem flang_C5_counterexample :
    IsValidDoTerminatingStatement { arena := [{ kind := .ifStmt none none }] }
      (.ifStmt none none) = false ∧
    specClaimInadmissibleDoTerminator { arena := [{ kind := .ifStmt none none }] }
      (.ifStmt none none) = false := by
  decide

/-- The admissibility characterization: the kinds judged inadmissible DO
terminators by the source are exactly the claim's set extended with an IF
carrying no then-statement, over states in which an IF's then-statement
reference is in the arena. -/
theorem isValidDoTerminating_iff_claimSet (st : SemaState) (S : StmtKind)
    (hwf : ∀ tid els, S = .ifStmt (some tid) els → tid < st.arena.length) :
    (IsValidDoTerminatingStatement st S = false ↔
      (specClaimInadmissibleDoTerminator st S = true ∨
        ∃ els, S = .ifStmt none els)) := by
  cases S with
  | ifStmt thenStmt els =>
    cases thenStmt with
    | none =>
      simp [IsValidDoTerminatingStatement, specClaimInadmissibleDoTerminator]
    | some tid =>
      have hlt : tid < st.arena.length := hwf tid els rfl
      simp only [IsValidDoTerminatingStatement, specClaimInadmissibleDoTerminator]
      cases hk : stmtKindOf st tid with
      | none =>
        exfalso
        have hnone : st.arena.get? tid = none := Option.map_eq_none.mp hk
        exact absurd hlt (not_lt.mpr (List.get?_eq_none.mp hnone))
      | some tk => cases tk <;> simp [IsValidDoLogicalIfThenStatement]
  | _ => simp [IsValidDoTerminatingStatement, specClaimInadmissibleDoTerminator]

/-- C5 as amended: the kinds judged inadmissible DO terminators are exactly
the claim's set extended with an IF carrying no then-statement; and when the
innermost open construct is a labeled DO waiting for the declared label and
the candidate terminator is inadmissible, the invalid-DO-terminator
diagnostic is reported but the terminator linkage is still established and
the DO is still popped - the check never aborts the action. -/
theorem flang_C5 :
    (∀ (st : SemaState) (S : StmtKind),
      (∀ tid els, S = .ifStmt (some tid) els → tid < st.arena.length) →
      (IsValidDoTerminatingStatement st S = false ↔
        (specClaimInadmissibleDoTerminator st S = true ∨
          ∃ els, S = .ifStmt none els))) ∧
    (∀ (st : SemaState) (did : StmtId) (L2 L : Nat) (rest : List Entry)
      (nd sn : StmtNode) (dv : Option VarId) (t0 : Option StmtId) (sid : StmtId),
      st.ControlFlowStack = ⟨did, some L2⟩ :: rest →
      StmtLabelScope.IsSame L2 L = true →
      getStmt st did = some nd →
      nd.kind = .doStmt dv t0 →
      getStmt st sid = some sn →
      IsValidDoTerminatingStatement st sn.kind = false →
      ∃ lv, CheckStatementLabelEndDo st L sid =
        { st with
          arena := st.arena.set did { nd with kind := .doStmt dv (some sid) },
          ControlFlowStack := rest,
          ForwardStmtLabelDeclsInScope := st.ForwardStmtLabelDeclsInScope.filter (fun fd => fd.Statement ≠ did),
          loopVars := lv,
          diags := st.diags ++ [Diag.invalidDoTerminatingStmt] }) := by
  refine ⟨isValidDoTerminating_iff_claimSet, ?_⟩
  intro st did L2 L rest nd sn dv t0 sid hstack hsame hnd hkind hsn hinvalid
  obtain ⟨lv, h⟩ := checkEndDo_spec st [] did L2 L rest nd dv t0 sid
    (by simpa using hstack) (by simp) hsame hnd hkind
  refine ⟨lv, ?_⟩
  rw [h]
  have hinv : invalidDoTerminatorDiags st sid = [Diag.invalidDoTerminatingStmt] := by
    unfold invalidDoTerminatorDiags
    rw [show stmtKindOf st sid = some sn.kind by simp [stmtKindOf, hsn]]
    show (if (!IsValidDoTerminatingStatement st sn.kind) = true then
        [Diag.invalidDoTerminatingStmt] else []) = _
    rw [hinvalid]
    rfl
  rw [show unwoundDiags st [] = [] from rfl, hinv]
  simp

/-- C5 witness: a DO at arena index 0 waiting for label 20 on top of the
stack, terminated by the GOTO at index 1 - an inadmissible terminator - is
still linked and popped, with the diagnostic reported; and the
characterization instantiated at a STOP statement. -/
theorem flang_C5_witness :
    (IsValidDoTerminatingStatement {} .stopStmt = false ↔
      (specClaimInadmissibleDoTerminator {} .stopStmt = true ∨
        ∃ els, StmtKind.stopStmt = .ifStmt none els)) ∧
    (∃ lv, CheckStatementLabelEndDo
        { arena := [{ kind := .doStmt none none }, { kind := .gotoStmt none }],
          ControlFlowStack := [⟨0, some 20⟩] } 20 1 =
      { ({ arena := [{ kind := .doStmt none none }, { kind := .gotoStmt none }],
           ControlFlowStack := [⟨0, some 20⟩] } : SemaState) with
        arena := [{ kind := .doStmt none (some 1) }, { kind := .gotoStmt none }],
        ControlFlowStack := [],
        ForwardStmtLabelDeclsInScope := [],
        loopVars := lv,
        diags := [Diag.invalidDoTerminatingStmt] }) := by
  constructor
  · exact flang_C5.1 {} .stopStmt (by intro tid els h; cases h)
  · obtain ⟨lv, h⟩ := flang_C5.2
      { arena := [{ kind := .doStmt none none }, { kind := .gotoStmt none }],
        ControlFlowStack := [⟨0, some 20⟩] }
      0 20 20 [] { kind := .doStmt none none } { kind := .gotoStmt none }
      none none 1 rfl (by decide) rfl rfl rfl (by decide)
    exact ⟨lv, by rw [h]; simp⟩


theorem modifyStmt_labels (st : SemaState) (i : StmtId) (f : StmtNode → StmtNode) :
    (modifyStmt st i f).StmtLabelDeclsInScope = st.StmtLabelDeclsInScope := by
  unfold modifyStmt setStmt
  cases h : st.arena.get? i <;> rfl

theorem modifyStmt_fwd (st : SemaState) (i : StmtId) (f : StmtNode → StmtNode) :
    (modifyStmt st i f).ForwardStmtLabelDeclsInScope = st.ForwardStmtLabelDeclsInScope := by
  unfold modifyStmt setStmt
  cases h : st.arena.get? i <;> rfl

theorem getStmt_modify_self (st : SemaState) (i : StmtId) (f : StmtNode → StmtNode)
    (nd : StmtNode) (h : getStmt st i = some nd) :
    getStmt (modifyStmt st i f) i = some (f nd) := by
  unfold getStmt at h
  unfold modifyStmt setStmt getStmt
  simp only [h]
  show (st.arena.set i (f nd)).get? i = _
  have hlt : i < st.arena.length := (List.get?_eq_some.mp h).1
  exact List.get?_set_eq_of_lt _ hlt

theorem getStmt_modify_other (st : SemaState) (i : StmtId) (f : StmtNode → StmtNode)
    (j : StmtId) (hne : j ≠ i) :
    getStmt (modifyStmt st i f) j = getStmt st j := by
  unfold modifyStmt setStmt getStmt
  cases h : st.arena.get? i with
  | none => rfl
  | some n =>
    show (st.arena.set i (f n)).get? j = _
    exact List.get?_set_ne _ _ (fun hij => hne hij.symm)

/-- A node predicate that the in-place modification function respects is
respected by modifyStmt, observed at any index. -/
theorem modifyStmt_pred (P : StmtNode → Prop) (st : SemaState) (i : StmtId)
    (f : StmtNode → StmtNode) (hf : ∀ n, P n → P (f n)) (j : StmtId)
    (h : ∀ nd, getStmt st j = some nd → P nd) :
    ∀ nd, getStmt (modifyStmt st i f) j = some nd → P nd := by
  intro nd hnd
  by_cases hij : j = i
  · subst hij
    cases hj : getStmt st j with
    | none =>
      unfold modifyStmt at hnd
      unfold getStmt at hj
      rw [hj] at hnd
      rw [show getStmt st j = st.arena.get? j from rfl, hj] at hnd
      cases hnd
    | some n0 =>
      rw [getStmt_modify_self st j f n0 hj] at hnd
      injection hnd with he
      rw [← he]
      exact hf n0 (h n0 hj)
  · rw [getStmt_modify_other st i f j hij] at hnd
    exact h nd hnd

/-- Any node predicate respected by each of the resolver's node rewrites is
preserved by one Visit, observed at any index. -/
theorem visit_pred (st : SemaState) (Info : ForwardDecl) (S : StmtId) (j : StmtId)
    (P : StmtNode → Prop)
    (hflagG : ∀ n, P n → P { n with usedAsGotoTarget := true })
    (hflagA : ∀ n, P n → P { n with usedAsAssignTarget := true })
    (haddr : ∀ n, P n → P (match n.kind with
      | .assignStmt v _ => { n with kind := .assignStmt v (some S) }
      | _ => n))
    (hallow : ∀ n slot, P n → P (match n.kind with
      | .assignedGotoStmt var al => { n with kind := .assignedGotoStmt var (al.set slot (some S)) }
      | _ => n))
    (hdest : ∀ n, P n → P (match n.kind with
      | .gotoStmt _ => { n with kind := .gotoStmt (some S) }
      | _ => n))
    (htarget : ∀ n slot, P n → P (match n.kind with
      | .computedGotoStmt ts => { n with kind := .computedGotoStmt (ts.set slot (some S)) }
      | _ => n))
    (hterm : ∀ n, P n → P (match n.kind with
      | .doStmt v _ => { n with kind := .doStmt v (some S) }
      | _ => n))
    (h : ∀ nd, getStmt st j = some nd → P nd) :
    ∀ nd, getStmt (StmtLabelResolver.Visit st Info S) j = some nd → P nd := by
  unfold StmtLabelResolver.Visit
  cases hown : getStmt st Info.Statement with
  | none => exact h
  | some node =>
    simp only []
    cases hk : node.kind with
    | assignStmt v a =>
      exact modifyStmt_pred P (setAddress st Info.Statement (some S)) S
        (fun n => { n with usedAsAssignTarget := true }) hflagA j
        (modifyStmt_pred P st Info.Statement
          (fun n => match n.kind with
            | .assignStmt v2 _ => { n with kind := .assignStmt v2 (some S) }
            | _ => n) haddr j h)
    | assignedGotoStmt v al =>
      exact modifyStmt_pred P st Info.Statement
        (fun n => match n.kind with
          | .assignedGotoStmt var al2 => { n with kind := .assignedGotoStmt var (al2.set Info.ResolveCallbackData (some S)) }
          | _ => n) (fun n hn => hallow n Info.ResolveCallbackData hn) j h
    | gotoStmt d =>
      exact modifyStmt_pred P (setDestination st Info.Statement (some S)) S
        (fun n => { n with usedAsGotoTarget := true }) hflagG j
        (modifyStmt_pred P st Info.Statement
          (fun n => match n.kind with
            | .gotoStmt _ => { n with kind := .gotoStmt (some S) }
            | _ => n) hdest j h)
    | computedGotoStmt ts =>
      exact modifyStmt_pred P (setTarget st Info.Statement Info.ResolveCallbackData (some S)) S
        (fun n => { n with usedAsGotoTarget := true }) hflagG j
        (modifyStmt_pred P st Info.Statement
          (fun n => match n.kind with
            | .computedGotoStmt ts2 => { n with kind := .computedGotoStmt (ts2.set Info.ResolveCallbackData (some S)) }
            | _ => n) (fun n hn => htarget n Info.ResolveCallbackData hn) j h)
    | doStmt v t =>
      exact modifyStmt_pred P st Info.Statement
        (fun n => match n.kind with
          | .doStmt v2 _ => { n with kind := .doStmt v2 (some S) }
          | _ => n) hterm j h
    | ifStmt a b => exact h
    | doWhileStmt => exact h
    | constructPart p => exact h
    | continueStmt => exact h
    | stopStmt => exact h
    | returnStmt => exact h
    | callStmt fn => exact h
    | cycleStmt lp => exact h
    | exitStmt lp => exact h

theorem visit_preserves_patched (st : SemaState) (Info : ForwardDecl) (S : StmtId)
    (j : StmtId) (slot : Nat)
    (h : ∀ nd, getStmt st j = some nd → nodePatched slot S nd) :
    ∀ nd, getStmt (StmtLabelResolver.Visit st Info S) j = some nd →
      nodePatched slot S nd := by
  refine visit_pred st Info S j (nodePatched slot S) ?_ ?_ ?_ ?_ ?_ ?_ ?_ h
  · intro n hn
    exact hn
  · intro n hn
    exact hn
  · intro n hn
    cases hk : n.kind <;> first | exact hn | exact trivial
  · intro n slot2 hn
    cases hk : n.kind
    case assignedGotoStmt var al =>
      have hn2 : al.get? slot = some (some S) := by
        have h0 := hn
        unfold nodePatched at h0
        rw [hk] at h0
        exact h0
      show (al.set slot2 (some S)).get? slot = some (some S)
      by_cases hss : slot2 = slot
      · subst hss
        have hlt : slot2 < al.length := (List.get?_eq_some.mp hn2).1
        rw [List.get?_set_eq_of_lt _ hlt]
      · rw [List.get?_set_ne _ _ hss]
        exact hn2
    all_goals exact hn
  · intro n hn
    cases hk : n.kind <;> first | exact hn | exact rfl
  · intro n slot2 hn
    cases hk : n.kind <;> first | exact hn | exact trivial
  · intro n hn
    cases hk : n.kind <;> first | exact hn | exact rfl

theorem visit_preserves_range (st : SemaState) (Info : ForwardDecl) (S : StmtId)
    (j : StmtId) (slot : Nat)
    (h : ∀ nd, getStmt st j = some nd → nodeSlotInRange slot nd) :
    ∀ nd, getStmt (StmtLabelResolver.Visit st Info S) j = some nd →
      nodeSlotInRange slot nd := by
  refine visit_pred st Info S j (nodeSlotInRange slot) ?_ ?_ ?_ ?_ ?_ ?_ ?_ h
  · intro n hn v al hk2
    exact hn v al hk2
  · intro n hn v al hk2
    exact hn v al hk2
  · intro n hn
    cases hk : n.kind <;>
      first
        | exact hn
        | (intro v2 al2 hc; exact StmtKind.noConfusion hc)
  · intro n slot2 hn
    cases hk : n.kind
    case assignedGotoStmt var al =>
      intro v2 al2 hc
      have hc2 : StmtKind.assignedGotoStmt var (al.set slot2 (some S)) =
          StmtKind.assignedGotoStmt v2 al2 := hc
      injection hc2 with hv hal
      rw [← hal, List.length_set]
      exact hn var al hk
    all_goals exact hn
  · intro n hn
    cases hk : n.kind <;>
      first
        | exact hn
        | (intro v2 al2 hc; exact StmtKind.noConfusion hc)
  · intro n slot2 hn
    cases hk : n.kind <;>
      first
        | exact hn
        | (intro v2 al2 hc; exact StmtKind.noConfusion hc)
  · intro n hn
    cases hk : n.kind <;>
      first
        | exact hn
        | (intro v2 al2 hc; exact StmtKind.noConfusion hc)

/-- Visiting a pending request patches its own designated slot. -/
theorem visit_establishes (st : SemaState) (fd : ForwardDecl) (S : StmtId)
    (hrange : ∀ nd, getStmt st fd.Statement = some nd →
      nodeSlotInRange fd.ResolveCallbackData nd) :
    ∀ nd, getStmt (StmtLabelResolver.Visit st fd S) fd.Statement = some nd →
      nodePatched fd.ResolveCallbackData S nd := by
  unfold StmtLabelResolver.Visit
  cases hown : getStmt st fd.Statement with
  | none =>
    intro nd hnd
    rw [hown] at hnd
    cases hnd
  | some node =>
    simp only []
    cases hk : node.kind
    case assignStmt v a =>
      have h1 : getStmt (setAddress st fd.Statement (some S)) fd.Statement =
          some { node with kind := .assignStmt v (some S) } := by
        have h2 := getStmt_modify_self st fd.Statement
          (fun n => match n.kind with
            | .assignStmt v2 _ => { n with kind := .assignStmt v2 (some S) }
            | _ => n) node hown
        simp only [] at h2
        rw [hk] at h2
        exact h2
      exact modifyStmt_pred (nodePatched fd.ResolveCallbackData S)
        (setAddress st fd.Statement (some S)) S
        (fun n => { n with usedAsAssignTarget := true }) (fun n hn => hn) fd.Statement
        (by
          intro nd hnd
          rw [h1] at hnd
          injection hnd with he
          rw [← he]
          exact trivial)
    case assignedGotoStmt v al =>
      have hlt : fd.ResolveCallbackData < al.length := hrange node hown v al hk
      have h1 : getStmt (setAllowedValue st fd.Statement fd.ResolveCallbackData (some S)) fd.Statement =
          some { node with kind := .assignedGotoStmt v (al.set fd.ResolveCallbackData (some S)) } := by
        have h2 := getStmt_modify_self st fd.Statement
          (fun n => match n.kind with
            | .assignedGotoStmt var al2 => { n with kind := .assignedGotoStmt var (al2.set fd.ResolveCallbackData (some S)) }
            | _ => n) node hown
        simp only [] at h2
        rw [hk] at h2
        exact h2
      intro nd hnd
      rw [h1] at hnd
      injection hnd with he
      rw [← he]
      show (al.set fd.ResolveCallbackData (some S)).get? fd.ResolveCallbackData = some (some S)
      rw [List.get?_set_eq_of_lt _ hlt]
    case gotoStmt d =>
      have h1 : getStmt (setDestination st fd.Statement (some S)) fd.Statement =
          some { node with kind := .gotoStmt (some S) } := by
        have h2 := getStmt_modify_self st fd.Statement
          (fun n => match n.kind with
            | .gotoStmt _ => { n with kind := .gotoStmt (some S) }
            | _ => n) node hown
        simp only [] at h2
        rw [hk] at h2
        exact h2
      exact modifyStmt_pred (nodePatched fd.ResolveCallbackData S)
        (setDestination st fd.Statement (some S)) S
        (fun n => { n with usedAsGotoTarget := true }) (fun n hn => hn) fd.Statement
        (by
          intro nd hnd
          rw [h1] at hnd
          injection hnd with he
          rw [← he]
          rfl)
    case computedGotoStmt ts =>
      have h1 : getStmt (setTarget st fd.Statement fd.ResolveCallbackData (some S)) fd.Statement =
          some { node with kind := .computedGotoStmt (ts.set fd.ResolveCallbackData (some S)) } := by
        have h2 := getStmt_modify_self st fd.Statement
          (fun n => match n.kind with
            | .computedGotoStmt ts2 => { n with kind := .computedGotoStmt (ts2.set fd.ResolveCallbackData (some S)) }
            | _ => n) node hown
        simp only [] at h2
        rw [hk] at h2
        exact h2
      exact modifyStmt_pred (nodePatched fd.ResolveCallbackData S)
        (setTarget st fd.Statement fd.ResolveCallbackData (some S)) S
        (fun n => { n with usedAsGotoTarget := true }) (fun n hn => hn) fd.Statement
        (by
          intro nd hnd
          rw [h1] at hnd
          injection hnd with he
          rw [← he]
          exact trivial)
    case doStmt v t =>
      have h1 : getStmt (setTerminatingStmt st fd.Statement (some S)) fd.Statement =
          some { node with kind := .doStmt v (some S) } := by
        have h2 := getStmt_modify_self st fd.Statement
          (fun n => match n.kind with
            | .doStmt v2 _ => { n with kind := .doStmt v2 (some S) }
            | _ => n) node hown
        simp only [] at h2
        rw [hk] at h2
        exact h2
      intro nd hnd
      rw [h1] at hnd
      injection hnd with he
      rw [← he]
      rfl
    all_goals
      intro nd hnd
      rw [hown] at hnd
      injection hnd with he
      rw [← he]
      unfold nodePatched
      rw [hk]
      exact trivial

theorem foldVisit_pres_patched (S : StmtId) (l : List ForwardDecl) (j : StmtId)
    (slot : Nat) :
    ∀ st, (∀ nd, getStmt st j = some nd → nodePatched slot S nd) →
      ∀ nd, getStmt (l.foldl (fun s fd => StmtLabelResolver.Visit s fd S) st) j = some nd →
        nodePatched slot S nd := by
  induction l with
  | nil =>
    intro st h
    exact h
  | cons fd0 rest ih =>
    intro st h
    simp only [List.foldl_cons]
    exact ih (StmtLabelResolver.Visit st fd0 S) (visit_preserves_patched st fd0 S j slot h)

/-- Every matching pending request's designated slot is patched by the scan. -/
theorem foldVisit_patched (S : StmtId) (l : List ForwardDecl) :
    ∀ st, (∀ fd ∈ l, ∀ nd, getStmt st fd.Statement = some nd →
        nodeSlotInRange fd.ResolveCallbackData nd) →
      ∀ fd ∈ l, ∀ nd,
        getStmt (l.foldl (fun s fd2 => StmtLabelResolver.Visit s fd2 S) st) fd.Statement = some nd →
        nodePatched fd.ResolveCallbackData S nd := by
  induction l with
  | nil =>
    intro st h fd hfd
    cases hfd
  | cons fd0 rest ih =>
    intro st h fd hfd
    simp only [List.foldl_cons]
    rcases List.mem_cons.mp hfd with heq | hmem
    · subst heq
      exact foldVisit_pres_patched S rest fd.Statement fd.ResolveCallbackData
        (StmtLabelResolver.Visit st fd S)
        (visit_establishes st fd S (h fd (List.mem_cons_self fd rest)))
    · exact ih (StmtLabelResolver.Visit st fd0 S)
        (fun fd2 hfd2 => visit_preserves_range st fd0 S fd2.Statement fd2.ResolveCallbackData
          (h fd2 (List.mem_cons_of_mem fd0 hfd2)))
        fd hmem

theorem visit_labels (st : SemaState) (Info : ForwardDecl) (S : StmtId) :
    (StmtLabelResolver.Visit st Info S).StmtLabelDeclsInScope =
      st.StmtLabelDeclsInScope := by
  unfold StmtLabelResolver.Visit
  cases hown : getStmt st Info.Statement with
  | none => rfl
  | some node =>
    simp only []
    cases hk : node.kind <;>
      first
        | rfl
        | simp only [setDestination, setAllowedValue, setTarget, setAddress,
            setTerminatingStmt, setStmtLabelUsedAsGotoTarget,
            setStmtLabelUsedAsAssignTarget, modifyStmt_labels]

theorem visit_fwd (st : SemaState) (Info : ForwardDecl) (S : StmtId) :
    (StmtLabelResolver.Visit st Info S).ForwardStmtLabelDeclsInScope =
      st.ForwardStmtLabelDeclsInScope := by
  unfold StmtLabelResolver.Visit
  cases hown : getStmt st Info.Statement with
  | none => rfl
  | some node =>
    simp only []
    cases hk : node.kind <;>
      first
        | rfl
        | simp only [setDestination, setAllowedValue, setTarget, setAddress,
            setTerminatingStmt, setStmtLabelUsedAsGotoTarget,
            setStmtLabelUsedAsAssignTarget, modifyStmt_fwd]

theorem foldVisit_labels (S : StmtId) (l : List ForwardDecl) :
    ∀ st, (l.foldl (fun s fd => StmtLabelResolver.Visit s fd S) st).StmtLabelDeclsInScope =
      st.StmtLabelDeclsInScope := by
  induction l with
  | nil =>
    intro st
    rfl
  | cons fd0 rest ih =>
    intro st
    simp only [List.foldl_cons]
    rw [ih (StmtLabelResolver.Visit st fd0 S), visit_labels]

theorem foldVisit_fwd (S : StmtId) (l : List ForwardDecl) :
    ∀ st, (l.foldl (fun s fd => StmtLabelResolver.Visit s fd S) st).ForwardStmtLabelDeclsInScope =
      st.ForwardStmtLabelDeclsInScope := by
  induction l with
  | nil =>
    intro st
    rfl
  | cons fd0 rest ih =>
    intro st
    simp only [List.foldl_cons]
    rw [ih (StmtLabelResolver.Visit st fd0 S), visit_fwd]

/-- Declaring a fresh label that no open labeled DO is waiting for records the
declaration, drops every matching pending request and runs the resolver over
exactly those requests. -/
theorem declareStatementLabel_scan (st : SemaState) (l : Nat) (S : StmtId)
    (hres : StmtLabelScope.Resolve st l = none)
    (hnotdo : IsInLabeledDo st l = false) :
    DeclareStatementLabel st l S =
      (st.ForwardStmtLabelDeclsInScope.filter
        (fun fd => GetStmtLabelValue fd.StmtLabel == GetStmtLabelValue l)).foldl
        (fun s fd => StmtLabelResolver.Visit s fd S)
        { st with StmtLabelDeclsInScope := st.StmtLabelDeclsInScope ++ [(GetStmtLabelValue l, S)], ForwardStmtLabelDeclsInScope := st.ForwardStmtLabelDeclsInScope.filter (fun fd => GetStmtLabelValue fd.StmtLabel != GetStmtLabelValue l) } := by
  have hfind : st.StmtLabelDeclsInScope.find? (fun p => p.1 == GetStmtLabelValue l) =
      none := by
    unfold StmtLabelScope.Resolve at hres
    exact Option.map_eq_none.mp hres
  set stD : SemaState := { st with StmtLabelDeclsInScope := st.StmtLabelDeclsInScope ++ [(GetStmtLabelValue l, S)] } with hstD
  have hdecl : StmtLabelScope.Declare st l S = stD := by
    unfold StmtLabelScope.Declare
    simp only [hfind]
  have hcheck : CheckStatementLabelEndDo stD l S = stD := by
    unfold CheckStatementLabelEndDo
    have hIn : IsInLabeledDo stD l = IsInLabeledDo st l := rfl
    rw [hIn, hnotdo]
    cases hHE : BlockStmtBuilder.HasEntered stD <;> simp
  unfold DeclareStatementLabel
  simp only [hres, hdecl, hcheck]

/-- The resolver's dispatch is the identity on every kind outside its match. -/
theorem visit_nonpatchable (st : SemaState) (Info : ForwardDecl) (S : StmtId)
    (node : StmtNode) (hown : getStmt st Info.Statement = some node)
    (hk : isPatchableKind node.kind = false) :
    StmtLabelResolver.Visit st Info S = st := by
  unfold StmtLabelResolver.Visit
  rw [hown]
  simp only []
  cases hkind : node.kind <;>
    first
      | rfl
      | (rw [hkind] at hk; exact Bool.noConfusion hk)

theorem fdSlotInRange_spec (st : SemaState) (fd : ForwardDecl)
    (h : fdSlotInRange st fd = true) :
    ∀ nd, getStmt st fd.Statement = some nd →
      nodeSlotInRange fd.ResolveCallbackData nd := by
  intro nd hnd v al hk
  unfold fdSlotInRange stmtKindOf at h
  rw [hnd] at h
  simp only [Option.map_some'] at h
  rw [hk] at h
  exact of_decide_eq_true h



/-- C1: when a fresh statement label with outstanding forward references is
declared (and no open labeled DO is waiting for it, the out-of-band path),
the declaration is recorded, every pending request for that label value is
removed from the pending list, and each one's owning statement is patched
according to its kind - a GOTO's destination slot, an assigned-GOTO's
allowed-target entry at the recorded slot index, and a DO's terminator slot
all now reference the newly declared statement; the resolver's dispatch is a
closed match, the identity on every kind it does not list. -/
theorem flang_C1 (st : SemaState) (lbl : Nat) (S : StmtId)
    (hres : StmtLabelScope.Resolve st lbl = none)
    (hnotdo : IsInLabeledDo st lbl = false)
    (hrange : st.ForwardStmtLabelDeclsInScope.all (fun fd => fdSlotInRange st fd) = true) :
    (DeclareStatementLabel st lbl S).StmtLabelDeclsInScope =
      st.StmtLabelDeclsInScope ++ [(GetStmtLabelValue lbl, S)] ∧
    (DeclareStatementLabel st lbl S).ForwardStmtLabelDeclsInScope =
      st.ForwardStmtLabelDeclsInScope.filter
        (fun fd => GetStmtLabelValue fd.StmtLabel != GetStmtLabelValue lbl) ∧
    (∀ fd ∈ st.ForwardStmtLabelDeclsInScope,
      GetStmtLabelValue fd.StmtLabel = GetStmtLabelValue lbl →
      ∀ nd, getStmt (DeclareStatementLabel st lbl S) fd.Statement = some nd →
        nodePatched fd.ResolveCallbackData S nd) ∧
    (∀ st2 Info S2 node, getStmt st2 Info.Statement = some node →
      isPatchableKind node.kind = false →
      StmtLabelResolver.Visit st2 Info S2 = st2) := by
  have hscan := declareStatementLabel_scan st lbl S hres hnotdo
  refine ⟨?_, ?_, ?_, ?_⟩
  · rw [hscan, foldVisit_labels S]
  · rw [hscan, foldVisit_fwd S]
  · intro fd hfd hkey nd hnd
    rw [hscan] at hnd
    refine foldVisit_patched S
      (st.ForwardStmtLabelDeclsInScope.filter
        (fun fd2 => GetStmtLabelValue fd2.StmtLabel == GetStmtLabelValue lbl))
      _ ?_ fd ?_ nd hnd
    · intro fd2 hfd2 nd2 hnd2
      have hmem : fd2 ∈ st.ForwardStmtLabelDeclsInScope := (List.mem_filter.mp hfd2).1
      have hr : fdSlotInRange st fd2 = true := List.all_eq_true.mp hrange fd2 hmem
      exact fdSlotInRange_spec st fd2 hr nd2 hnd2
    · refine List.mem_filter.mpr ⟨hfd, ?_⟩
      simp [hkey]
  · intro st2 Info S2 node h1 h2
    exact visit_nonpatchable st2 Info S2 node h1 h2

/-- C1 witness: label 20 is pending from a GOTO (statement 0), slot 1 of an
assigned GOTO (statement 1) and a DO (statement 2), plus an unrelated pending
label 99.  Declaring 20 at statement 5 records the declaration, keeps only
the label-99 request, and patches the three owners' slots; the dispatch
leaves a CONTINUE owner untouched. -/
theorem flang_C1_witness :
    StmtLabelScope.Resolve { arena := [{ kind := .gotoStmt none }, { kind := .assignedGotoStmt 0 [none, none] }, { kind := .doStmt (some 0) none }], ForwardStmtLabelDeclsInScope := [⟨20, 0, 0⟩, ⟨20, 1, 1⟩, ⟨20, 2, 0⟩, ⟨99, 0, 0⟩] } 20 = none ∧
    IsInLabeledDo { arena := [{ kind := .gotoStmt none }, { kind := .assignedGotoStmt 0 [none, none] }, { kind := .doStmt (some 0) none }], ForwardStmtLabelDeclsInScope := [⟨20, 0, 0⟩, ⟨20, 1, 1⟩, ⟨20, 2, 0⟩, ⟨99, 0, 0⟩] } 20 = false ∧
    (DeclareStatementLabel { arena := [{ kind := .gotoStmt none }, { kind := .assignedGotoStmt 0 [none, none] }, { kind := .doStmt (some 0) none }], ForwardStmtLabelDeclsInScope := [⟨20, 0, 0⟩, ⟨20, 1, 1⟩, ⟨20, 2, 0⟩, ⟨99, 0, 0⟩] } 20 5).StmtLabelDeclsInScope = [(20, 5)] ∧
    (DeclareStatementLabel { arena := [{ kind := .gotoStmt none }, { kind := .assignedGotoStmt 0 [none, none] }, { kind := .doStmt (some 0) none }], ForwardStmtLabelDeclsInScope := [⟨20, 0, 0⟩, ⟨20, 1, 1⟩, ⟨20, 2, 0⟩, ⟨99, 0, 0⟩] } 20 5).ForwardStmtLabelDeclsInScope = [⟨99, 0, 0⟩] ∧
    nodePatched 0 5 { kind := StmtKind.gotoStmt (some 5) } ∧
    nodePatched 1 5 { kind := StmtKind.assignedGotoStmt 0 [none, some 5] } ∧
    nodePatched 0 5 { kind := StmtKind.doStmt (some 0) (some 5) } ∧
    StmtLabelResolver.Visit { arena := [{ kind := StmtKind.continueStmt }] } ⟨7, 0, 0⟩ 9 =
      { arena := [{ kind := StmtKind.continueStmt }] } := by
  have h := flang_C1 { arena := [{ kind := .gotoStmt none }, { kind := .assignedGotoStmt 0 [none, none] }, { kind := .doStmt (some 0) none }], ForwardStmtLabelDeclsInScope := [⟨20, 0, 0⟩, ⟨20, 1, 1⟩, ⟨20, 2, 0⟩, ⟨99, 0, 0⟩] } 20 5 (by decide) (by decide) (by decide)
  refine ⟨by decide, by decide, ?_, ?_, ?_, ?_, ?_, ?_⟩
  · rw [h.1]
    decide
  · rw [h.2.1]
    decide
  · exact h.2.2.1 ⟨20, 0, 0⟩ (by decide) (by decide) { kind := .gotoStmt (some 5) } (by decide)
  · exact h.2.2.1 ⟨20, 1, 1⟩ (by decide) (by decide) { kind := .assignedGotoStmt 0 [none, some 5] } (by decide)
  · exact h.2.2.1 ⟨20, 2, 0⟩ (by decide) (by decide) { kind := .doStmt (some 0) (some 5) } (by decide)
  · exact h.2.2.2 { arena := [{ kind := StmtKind.continueStmt }] } ⟨7, 0, 0⟩ 9 { kind := StmtKind.continueStmt } (by decide) (by decide)


end Flang
